import Mathlib

/-!
Verification of the SmartRouter core (task analyzer, model router, cost tracker)
against its natural-language specification.

The JavaScript sources are shallowly embedded as total Lean functions:
* text is a `List Char` (one entry per UTF-16 unit of the JS string; all
  concrete inputs are ASCII, where the two notions agree);
* the regular expressions of `analyzer.js` are translated to explicit
  scanning functions (`containsStr`, `hasWordCi`, `braceBlock`, `countSplits`);
* JS numbers used for money are embedded as `ℚ`, token counts as `ℕ`;
* the abstract backend of `router.js` is a function from the tier key to
  `Except String`, covering every behaviour of `executeModel` / `apiClient`
  (within one `route` call no tier is invoked twice, so indexing by tier
  loses no generality);
* wall-clock fields (`timestamp`, `duration`) and `console.log` output are
  pure telemetry with no control-flow effect and are not modelled, with one
  exception: when `this.models[tier]` is `undefined`, the template literal
  `model.displayName` inside `route` raises a `TypeError` before any backend
  call or ledger append; this is modelled as `RouteError.typeError`.
-/

namespace SmartRouter

/-! ## Character helpers -/

/-- `\d` of a JS regex: the ASCII digits. -/
def isDigitCh (c : Char) : Bool := '0' ≤ c && c ≤ '9'

/-- `\w` of a JS regex: `[A-Za-z0-9_]`. -/
def isWordCh (c : Char) : Bool :=
  isDigitCh c || ('a' ≤ c && c ≤ 'z') || ('A' ≤ c && c ≤ 'Z') || c == '_'

/-- ASCII lower-casing, as `String.prototype.toLowerCase` acts on the
ASCII range (all keywords and concrete inputs are ASCII). -/
def lowerCh (c : Char) : Char := c.toLower

/-- Boolean prefix test on char lists (the embedding's only string matcher). -/
def prefAt : List Char → List Char → Bool
  | [], _ => true
  | _ :: _, [] => false
  | a :: as, b :: bs => (a == b) && prefAt as bs

/-- `s.includes(k)` of JS: `k` occurs as a contiguous substring of `s`. -/
def containsStr : List Char → List Char → Bool
  | [], k => k.isEmpty
  | c :: r, k => prefAt k (c :: r) || containsStr r k

/-- Case-insensitive substring test, as `lowerPrompt.includes(keyword)`
(`k` is already lower case). -/
def containsCi (k s : List Char) : Bool := containsStr (s.map lowerCh) k

/-- The regex `/\{[\s\S]*\}/`: some `'{'` with a later `'}'`. -/
def braceBlock : List Char → Bool
  | [] => false
  | c :: r => (c == '{' && r.contains '}') || braceBlock r

/-- A word boundary `\b` holds before a word character iff the preceding
character (if any) is not a word character. -/
def boundaryB : Option Char → Bool
  | none => true
  | some c => !isWordCh c

/-- Scan for `/\bKW\b/i` (`kw` lower case, made of word characters):
at each position, `kw` must match case-insensitively with a word boundary
on both sides. -/
def hasWordAux (kw : List Char) : Option Char → List Char → Bool
  | _, [] => false
  | prev, c :: r =>
    (boundaryB prev && prefAt kw ((c :: r).map lowerCh)
      && boundaryB ((c :: r).drop kw.length).head?)
    || hasWordAux kw (some c) r

/-- The regex `/\bKW\b/i` applied to a text. -/
def hasWordCi (kw s : List Char) : Bool := hasWordAux kw none s

/-! ## TaskAnalyzer (`src/analyzer.js`) -/

/-- `TaskAnalyzer.detectCode`: the nine `codePatterns`, in source order. -/
def detectCode (s : List Char) : Bool :=
  containsStr s "```".toList
  || hasWordCi "function".toList s
  || hasWordCi "class".toList s
  || hasWordCi "import".toList s
  || hasWordCi "const".toList s
  || hasWordCi "let".toList s
  || hasWordCi "var".toList s
  || containsStr s "=>".toList
  || braceBlock s

/-- `TaskAnalyzer.reasoningKeywords`. -/
def reasoningKeywords : List (List Char) :=
  ["analyze".toList, "explain".toList, "compare".toList, "evaluate".toList,
   "critique".toList, "reason".toList, "logic".toList, "proof".toList,
   "deduce".toList, "infer".toList, "strategy".toList, "plan".toList,
   "design".toList, "architect".toList, "debug".toList, "optimize".toList,
   "refactor".toList, "solve".toList]

/-- `TaskAnalyzer.complexKeywords`. -/
def complexKeywords : List (List Char) :=
  ["comprehensive".toList, "detailed".toList, "in-depth".toList,
   "thorough".toList, "multiple".toList, "various".toList,
   "several".toList, "complex".toList]

/-- Leftmost match of `/\d+\.|step|first|then|next|finally/i` at the head of
`s`, returning its length: the alternation first tries a maximal digit run
followed by `'.'`, then the five keywords case-insensitively in order. -/
def splitMatchAt (s : List Char) : Option ℕ :=
  let ds := s.takeWhile isDigitCh
  if 0 < ds.length && ((s.drop ds.length).head? == some '.') then
    some (ds.length + 1)
  else if prefAt ['s', 't', 'e', 'p'] (s.map lowerCh) then some 4
  else if prefAt ['f', 'i', 'r', 's', 't'] (s.map lowerCh) then some 5
  else if prefAt ['t', 'h', 'e', 'n'] (s.map lowerCh) then some 4
  else if prefAt ['n', 'e', 'x', 't'] (s.map lowerCh) then some 4
  else if prefAt ['f', 'i', 'n', 'a', 'l', 'l', 'y'] (s.map lowerCh) then some 7
  else none

/-- Left-to-right scan counting non-overlapping matches of the split regex.
The first argument is the number of characters of the current match still to
be skipped; on a fresh position a match of length `n` counts once and skips
its remaining `n - 1` characters. -/
def splitScan : ℕ → List Char → ℕ
  | _, [] => 0
  | k + 1, _ :: r => splitScan k r
  | 0, c :: r =>
    match splitMatchAt (c :: r) with
    | some n => 1 + splitScan (n - 1) r
    | none => splitScan 0 r

/-- Number of separator matches found by
`prompt.split(/\d+\.|step|first|then|next|finally/i)` — one less than the
number of parts: the regex engine scans left to right and consumes each
non-overlapping match. -/
def countSplits (s : List Char) : ℕ := splitScan 0 s

/-- Number of keywords from `kws` present in the lower-cased text (the
source's `forEach`/`includes` loop adds 1 once per present keyword). -/
def kwCount (kws : List (List Char)) (s : List Char) : ℕ :=
  (kws.filter (fun k => containsCi k s)).length

/-- `TaskAnalyzer.assessReasoning`: keyword hits plus multi-step split
count, clamped to 10. -/
def assessReasoning (s : List Char) : ℕ :=
  min 10 (kwCount reasoningKeywords s + countSplits s)

/-- `TaskAnalyzer.countQuestions`: occurrences of `'?'`. -/
def countQuestions (s : List Char) : ℕ := s.count '?'

/-- Helper for `countSentences`: counts maximal runs of `[.!?]`,
remembering whether the previous character was a terminator. -/
def sentAux : Bool → List Char → ℕ
  | _, [] => 0
  | inRun, c :: r =>
    let isTerm := c == '.' || c == '!' || c == '?'
    (if isTerm && !inRun then 1 else 0) + sentAux isTerm r

/-- `TaskAnalyzer.countSentences`: number of matches of `/[.!?]+/g`. -/
def countSentences (s : List Char) : ℕ := sentAux false s

/-- `TaskAnalyzer.calculateComplexity`: additive score, clamped to 100. -/
def calculateComplexity (s : List Char) : ℕ :=
  let score :=
    (if 500 < s.length then 20 else 0)
    + (if 1000 < s.length then 20 else 0)
    + (if detectCode s then 25 else 0)
    + 3 * assessReasoning s
    + 5 * kwCount complexKeywords s
    + (if 1 < countQuestions s then countQuestions s * 5 else 0)
  min 100 score

/-- `TaskAnalyzer.estimateTokens`: `Math.ceil(text.length / 4)`. -/
def estimateTokens (s : List Char) : ℕ := (s.length + 3) / 4

/-- The metrics record returned by `TaskAnalyzer.calculateMetrics`. -/
structure ComplexityMetrics where
  tokens : ℕ
  hasCode : Bool
  reasoningLevel : ℕ
  complexityScore : ℕ
  length : ℕ
  sentences : ℕ
  questions : ℕ
deriving DecidableEq, Repr

/-- `TaskAnalyzer.calculateMetrics`. -/
def calculateMetrics (s : List Char) : ComplexityMetrics :=
  { tokens := estimateTokens s
    hasCode := detectCode s
    reasoningLevel := assessReasoning s
    complexityScore := calculateComplexity s
    length := s.length
    sentences := countSentences s
    questions := countQuestions s }

/-- The three routing tiers. -/
inductive Tier where
  | SIMPLE
  | MEDIUM
  | COMPLEX
deriving DecidableEq, Repr

/-- The tier's string key, as the analyzer and router exchange it. -/
def tierStr : Tier → String
  | .SIMPLE => "SIMPLE"
  | .MEDIUM => "MEDIUM"
  | .COMPLEX => "COMPLEX"

/-- `TaskAnalyzer.determineTier`: the decision ladder, first match wins. -/
def determineTier (m : ComplexityMetrics) : Tier :=
  if 60 ≤ m.complexityScore then .COMPLEX
  else if m.hasCode && 5 ≤ m.reasoningLevel then .COMPLEX
  else if 500 < m.tokens then .COMPLEX
  else if 30 ≤ m.complexityScore then .MEDIUM
  else if m.hasCode then .MEDIUM
  else if 3 ≤ m.reasoningLevel then .MEDIUM
  else if 200 < m.tokens then .MEDIUM
  else .SIMPLE

/-- `TaskAnalyzer.calculateConfidence`. -/
def calculateConfidence (m : ComplexityMetrics) (t : Tier) : ℚ :=
  if t = .COMPLEX ∧ 70 ≤ m.complexityScore then 95/100
  else if t = .COMPLEX ∧ 60 ≤ m.complexityScore then 85/100
  else if t = .MEDIUM ∧ 30 ≤ m.complexityScore ∧ m.complexityScore < 60 then 90/100
  else if t = .SIMPLE ∧ m.complexityScore < 25 then 92/100
  else 75/100

/-- `TaskAnalyzer.explainDecision`: the ordered reasoning clauses. -/
def explainDecision (m : ComplexityMetrics) (_t : Tier) : String :=
  let reasons :=
    (if 60 ≤ m.complexityScore then
      ["High complexity score (" ++ toString m.complexityScore ++ ")"] else [])
    ++ (if m.hasCode then ["Contains code"] else [])
    ++ (if 5 ≤ m.reasoningLevel then
      ["High reasoning requirement (" ++ toString m.reasoningLevel ++ "/10)"] else [])
    ++ (if 500 < m.tokens then
      ["Large token count (~" ++ toString m.tokens ++ ")"] else [])
  let reasons :=
    if reasons.isEmpty then ["Simple query with basic requirements"] else reasons
  String.intercalate ", " reasons

/-- The value returned by `TaskAnalyzer.analyze`. -/
structure AnalysisResult where
  tier : Tier
  metrics : ComplexityMetrics
  confidence : ℚ
  reasoning : String
deriving DecidableEq, Repr

/-- `TaskAnalyzer.analyze`: metrics, tier, confidence and trace. -/
def analyze (s : List Char) : AnalysisResult :=
  let m := calculateMetrics s
  let t := determineTier m
  { tier := t
    metrics := m
    confidence := calculateConfidence m t
    reasoning := explainDecision m t }

/-! ## CostTracker (`src/cost-tracker.js`)

Wall-clock fields (`timestamp`, `duration`) and the prompt snippet are pure
telemetry copied into each row; they do not influence any operation of the
tracker and are left out of the embedded record. -/

/-- One row of the usage ledger (`CostTracker.logRequest`'s stored shape).
`error` is `none` on success rows, where the JS object has no `error` key. -/
structure UsageRecord where
  id : ℕ
  tier : String
  model : String
  inputTokens : ℕ
  outputTokens : ℕ
  cost : ℚ
  success : Bool
  attempts : ℕ
  error : Option String
deriving DecidableEq, Repr

/-- The baseline pricing fixed in the `CostTracker` constructor. -/
structure BaselineModel where
  name : String
  costPerMInput : ℚ
  costPerMOutput : ℚ
deriving DecidableEq, Repr

/-- The `CostTracker` state: the append-only `requests` array and the
constructor-fixed baseline model. -/
structure CostTracker where
  requests : List UsageRecord
  baselineModel : BaselineModel
deriving DecidableEq, Repr

/-- A freshly constructed tracker (`new CostTracker()`). -/
def mkCostTracker : CostTracker :=
  { requests := []
    baselineModel :=
      { name := "Claude Opus 4.6", costPerMInput := 90, costPerMOutput := 90 } }

/-- `CostTracker.logRequest`: push the record with `id` set to the new
1-based position (`this.requests.length + 1`); any `id` on the argument is
overwritten. -/
def logRequest (t : CostTracker) (r : UsageRecord) : CostTracker :=
  { t with requests := t.requests ++ [{ r with id := t.requests.length + 1 }] }

/-- `CostTracker.clear`: discard all records. -/
def clear (t : CostTracker) : CostTracker := { t with requests := [] }

/-- `CostTracker.getRecentRequests`: `this.requests.slice(-limit)`.
For `limit ≥ 1` this is the last `limit` elements; for `limit = 0` JS has
`-0 === 0`, so `slice(0)` returns the whole array. -/
def getRecentRequests (t : CostTracker) (limit : ℕ) : List UsageRecord :=
  if limit = 0 then t.requests
  else t.requests.drop (t.requests.length - limit)

/-- Per-tier entry of `costByTier`. -/
structure TierBreakdown where
  requests : ℕ
  cost : ℚ
  inputTokens : ℕ
  outputTokens : ℕ
deriving DecidableEq, Repr

/-- Value of the `savingsMultiplier` field. `undef` is the JS `undefined`
(the key is absent from the early-return object); `inf` is the JS
`Infinity` produced by dividing a positive baseline by a zero total cost. -/
inductive MulVal where
  | undef
  | inf
  | val (q : ℚ)
deriving DecidableEq, Repr

/-- The object returned by `CostTracker.calculateStats`. Fields set to
`none` / `MulVal.undef` are the keys absent from the early-return object
(JS `undefined`). -/
structure Stats where
  totalRequests : ℕ
  successfulRequests : ℕ
  failedRequests : Option ℕ
  totalCost : ℚ
  baselineCost : ℚ
  savings : ℚ
  savingsPercent : ℚ
  savingsMultiplier : MulVal
  avgCostPerRequest : ℚ
  totalInputTokens : Option ℕ
  totalOutputTokens : Option ℕ
  costByTier : String → Option TierBreakdown
  requestsByTier : Option (String → Option ℕ)

/-- `CostTracker.calculateStats`: when no successful record exists it
returns the zero object (missing several keys); otherwise it derives all
aggregates from the record sequence. -/
def calculateStats (t : CostTracker) : Stats :=
  let successful := t.requests.filter (fun r => r.success)
  if successful.length = 0 then
    { totalRequests := 0
      successfulRequests := 0
      failedRequests := none
      totalCost := 0
      baselineCost := 0
      savings := 0
      savingsPercent := 0
      savingsMultiplier := .undef
      avgCostPerRequest := 0
      totalInputTokens := none
      totalOutputTokens := none
      costByTier := fun _ => none
      requestsByTier := none }
  else
    let totalCost : ℚ := (successful.map (fun r => r.cost)).sum
    let totalInputTokens : ℕ := (successful.map (fun r => r.inputTokens)).sum
    let totalOutputTokens : ℕ := (successful.map (fun r => r.outputTokens)).sum
    let baselineCost :=
      ((totalInputTokens : ℚ) / 1000000) * t.baselineModel.costPerMInput
      + ((totalOutputTokens : ℚ) / 1000000) * t.baselineModel.costPerMOutput
    let savings := baselineCost - totalCost
    let breakdown : String → Option TierBreakdown := fun tier =>
      if tier = "SIMPLE" ∨ tier = "MEDIUM" ∨ tier = "COMPLEX" then
        let tierRequests := successful.filter (fun r => r.tier = tier)
        some { requests := tierRequests.length
               cost := (tierRequests.map (fun r => r.cost)).sum
               inputTokens := (tierRequests.map (fun r => r.inputTokens)).sum
               outputTokens := (tierRequests.map (fun r => r.outputTokens)).sum }
      else none
    { totalRequests := t.requests.length
      successfulRequests := successful.length
      failedRequests := some (t.requests.length - successful.length)
      totalCost := totalCost
      baselineCost := baselineCost
      savings := savings
      savingsPercent := if 0 < baselineCost then savings / baselineCost * 100 else 0
      savingsMultiplier :=
        if 0 < baselineCost then
          if totalCost = 0 then .inf else .val (baselineCost / totalCost)
        else .val 0
      avgCostPerRequest := totalCost / successful.length
      totalInputTokens := some totalInputTokens
      totalOutputTokens := some totalOutputTokens
      costByTier := breakdown
      requestsByTier := some (fun tier => (breakdown tier).map (fun b => b.requests)) }

/-- The tracker states reachable through the public interface: built from a
fresh tracker by `logRequest` appends, with `clear` wiping the rows. -/
inductive Reachable : CostTracker → Prop
  | init (bm : BaselineModel) : Reachable { requests := [], baselineModel := bm }
  | log {t : CostTracker} (r : UsageRecord) :
      Reachable t → Reachable (logRequest t r)
  | wipe {t : CostTracker} : Reachable t → Reachable (clear t)

/-! ## ModelRouter (`src/router.js`) -/

/-- Per-tier model configuration (`this.models[...]`). -/
structure ModelConfig where
  name : String
  displayName : String
  costPerMInput : ℚ
  costPerMOutput : ℚ
  maxRetries : ℕ
deriving DecidableEq, Repr

/-- The constructor's SIMPLE-tier configuration. -/
def simpleConfig : ModelConfig :=
  { name := "minimax/minimax-01", displayName := "Minimax M2.5",
    costPerMInput := 127/100, costPerMOutput := 127/100, maxRetries := 2 }

/-- The constructor's MEDIUM-tier configuration. -/
def mediumConfig : ModelConfig :=
  { name := "anthropic/claude-3-5-haiku-20241022",
    displayName := "Claude 3.5 Haiku",
    costPerMInput := 4/5, costPerMOutput := 4, maxRetries := 2 }

/-- The constructor's COMPLEX-tier configuration. -/
def complexConfig : ModelConfig :=
  { name := "anthropic/claude-opus-4-20250514",
    displayName := "Claude Opus 4.6",
    costPerMInput := 90, costPerMOutput := 90, maxRetries := 1 }

/-- The constructor's `this.models` object: a string-keyed lookup, `none`
for keys the object does not have (JS `undefined`). -/
def defaultModels : String → Option ModelConfig := fun tier =>
  if tier = "SIMPLE" then some simpleConfig
  else if tier = "MEDIUM" then some mediumConfig
  else if tier = "COMPLEX" then some complexConfig
  else none

/-- `this.fallbackChain`: SIMPLE → MEDIUM → COMPLEX → none. Lookup of any
other key yields JS `undefined`, which is falsy like the `null` stored for
COMPLEX, so both are `none`. -/
def fallbackChain : String → Option String := fun tier =>
  if tier = "SIMPLE" then some "MEDIUM"
  else if tier = "MEDIUM" then some "COMPLEX"
  else none

/-- The usage object of a backend response (`response.usage`). -/
structure Usage where
  input : ℕ
  output : ℕ
  total : ℕ
deriving DecidableEq, Repr

/-- A backend response (`executeModel` / `apiClient.complete` resolution). -/
structure BackendResponse where
  content : String
  usage : Usage
deriving DecidableEq, Repr

/-- One `route` call's backend behaviour: for each tier key, either a thrown
error (its `message`) or a response. Within a call no tier is invoked
twice, so indexing by tier covers every behaviour, including the mock's
random failures. -/
def Backend : Type := String → Except String BackendResponse

/-- How a `route` call can reject. `typeError` is the `TypeError` raised by
reading `model.displayName` when `this.models[tier]` is `undefined` (it
fires inside `try`, is caught, and fires again in the `catch` block's own
template literal, before `logRequest` and before any backend call).
`allFailed e` is `new Error("All models failed. Last error: " + e)`. -/
inductive RouteError where
  | typeError
  | allFailed (lastMessage : String)
deriving DecidableEq, Repr

/-- The resolved value of a successful `route` call (wall-clock duration
omitted). -/
structure RouteSuccess where
  tier : String
  model : String
  displayName : String
  response : String
  usage : Usage
  cost : ℚ
  analysis : AnalysisResult
  attempts : ℕ
deriving DecidableEq, Repr

/-- `ModelRouter.calculateCost`:
`(usage.input / 1e6) * costPerMInput + (usage.output / 1e6) * costPerMOutput`. -/
def calculateCost (m : ModelConfig) (u : Usage) : ℚ :=
  ((u.input : ℚ) / 1000000) * m.costPerMInput
  + ((u.output : ℚ) / 1000000) * m.costPerMOutput

/-- The `while (tier)` loop of `ModelRouter.route`. `attempts` is the
counter value before the `attempts++` of the current iteration. On backend
failure the failure row is logged first; then the loop escalates exactly
when `fallbackChain[tier]` is truthy and the incremented counter is below
3, and otherwise throws with the last error embedded. -/
def routeAux (models : String → Option ModelConfig) (backend : Backend)
    (analysis : AnalysisResult) (tier : String) (attempts : ℕ)
    (tracker : CostTracker) : Except RouteError RouteSuccess × CostTracker :=
  let a := attempts + 1
  match models tier with
  | none => (.error .typeError, tracker)
  | some m =>
    match backend tier with
    | .ok resp =>
      let cost := calculateCost m resp.usage
      let tracker' := logRequest tracker
        { id := 0, tier := tier, model := m.name,
          inputTokens := resp.usage.input, outputTokens := resp.usage.output,
          cost := cost, success := true, attempts := a, error := none }
      (.ok { tier := tier, model := m.name, displayName := m.displayName,
             response := resp.content, usage := resp.usage, cost := cost,
             analysis := analysis, attempts := a }, tracker')
    | .error e =>
      let tracker' := logRequest tracker
        { id := 0, tier := tier, model := m.name,
          inputTokens := 0, outputTokens := 0, cost := 0,
          success := false, attempts := a, error := some e }
      match fallbackChain tier with
      | some nextTier =>
        if _h : a < 3 then routeAux models backend analysis nextTier a tracker'
        else (.error (.allFailed e), tracker')
      | none => (.error (.allFailed e), tracker')
termination_by 3 - attempts
decreasing_by omega

/-- The starting tier of a `route` call:
`options.forceTier || analysis.tier`, so a falsy forced tier such as the
empty string is ignored in favour of the classifier's tier. -/
def startTier (analysis : AnalysisResult) (forceTier : Option String) :
    String :=
  match forceTier with
  | some s => if s = "" then tierStr analysis.tier else s
  | none => tierStr analysis.tier

/-- `ModelRouter.route`: classify, pick the starting tier, then run the
fallback loop with the attempt counter at 0. -/
def route (models : String → Option ModelConfig) (prompt : List Char)
    (forceTier : Option String) (backend : Backend) (tracker : CostTracker) :
    Except RouteError RouteSuccess × CostTracker :=
  let analysis := analyze prompt
  routeAux models backend analysis (startTier analysis forceTier) 0 tracker

/-- `ModelRouter.getModelInfo`: a bare property read `this.models[tier]`;
an unknown tier yields JS `undefined` (here `none`) — no error is raised. -/
def getModelInfo (models : String → Option ModelConfig) (tier : String) :
    Option ModelConfig :=
  models tier

/-! ## Specification-side definitions

Derived notions used only to state the verified properties, plus the
concrete data of the witnesses and counterexamples. -/

/-- The records a `route` call appended: the suffix of the final ledger
past the records that were already present. -/
def newRecords (t t' : CostTracker) : List UsageRecord :=
  t'.requests.drop t.requests.length

/-- The failure row `route` logs in its `catch` block (cost 0, tokens 0,
the thrown message retained), with sequence id `n` and attempt number `a`. -/
def failureRecordAt (n : ℕ) (tierKey modelName msg : String) (a : ℕ) :
    UsageRecord :=
  { id := n, tier := tierKey, model := modelName, inputTokens := 0,
    outputTokens := 0, cost := 0, success := false, attempts := a,
    error := some msg }

/-- The success row `route` logs after a backend response, with sequence
id `n` and attempt number `a`. -/
def successRecordAt (n : ℕ) (tierKey modelName : String) (u : Usage)
    (c : ℚ) (a : ℕ) : UsageRecord :=
  { id := n, tier := tierKey, model := modelName, inputTokens := u.input,
    outputTokens := u.output, cost := c, success := true, attempts := a,
    error := none }

/-- The failure-handling contract of one `route` call (claim C1), for the
call's starting tier `tier0`, the records it appended and its outcome.
Together the conjuncts pin the whole trace down:
* the old ledger is a prefix of the new one, and an unknown starting tier
  appends nothing and rejects with the `TypeError`;
* for a known starting tier the first attempt always appends a record
  carrying that tier, and every record's success flag mirrors the backend
  outcome at its tier — so a failed attempt cannot go unlogged;
* every failed record carries cost 0, tokens 0 and the backend's error
  text; every non-last record is a failed one whose successor carries its
  fallback tier, so no tier is attempted twice, at most 3 attempts happen
  and the i-th record is attempt i+1;
* after a failed attempt the trace continues exactly when a next tier
  exists and the attempt count is below 3;
* a failed final record forces the `allFailed` rejection embedding that
  record's (the most recent) error message, and a successful final record
  forces the `Except.ok` return — so `route` raises precisely when no next
  tier exists or the attempt ceiling is reached. -/
def RouteProtocol (backend : Backend) (tier0 : String)
    (tracker : CostTracker) (res : Except RouteError RouteSuccess)
    (tk' : CostTracker) : Prop :=
  tracker.requests <+: tk'.requests
  ∧ (∀ r ∈ newRecords tracker tk', r.success = false →
      r.cost = 0 ∧ r.inputTokens = 0 ∧ r.outputTokens = 0
      ∧ ∃ e, backend r.tier = Except.error e ∧ r.error = some e)
  ∧ (∀ r ∈ newRecords tracker tk',
      (r.success = true ↔ ∃ resp, backend r.tier = Except.ok resp))
  ∧ List.Chain'
      (fun a b => a.success = false ∧ fallbackChain a.tier = some b.tier)
      (newRecords tracker tk')
  ∧ ((newRecords tracker tk').map (fun r => r.tier)).Nodup
  ∧ (newRecords tracker tk').length ≤ 3
  ∧ (∀ i (hi : i < (newRecords tracker tk').length),
      ((newRecords tracker tk').get ⟨i, hi⟩).attempts = i + 1)
  ∧ (∀ i (hi : i < (newRecords tracker tk').length),
      ((newRecords tracker tk').get ⟨i, hi⟩).success = false →
      ((i + 1 < (newRecords tracker tk').length) ↔
        (fallbackChain ((newRecords tracker tk').get ⟨i, hi⟩).tier ≠ none
          ∧ i + 1 < 3)))
  ∧ ((defaultModels tier0).isSome = true →
      ∃ r rest, newRecords tracker tk' = r :: rest ∧ r.tier = tier0)
  ∧ (defaultModels tier0 = none →
      newRecords tracker tk' = [] ∧ res = Except.error RouteError.typeError)
  ∧ (∀ r, (newRecords tracker tk').getLast? = some r → r.success = false →
      ∃ e, r.error = some e ∧ res = Except.error (RouteError.allFailed e))
  ∧ (∀ r, (newRecords tracker tk').getLast? = some r → r.success = true →
      ∃ v, res = Except.ok v ∧ v.tier = r.tier ∧ v.attempts = r.attempts)
  ∧ (∀ e, res = Except.error (RouteError.allFailed e) →
      ∃ r, (newRecords tracker tk').getLast? = some r
        ∧ r.success = false ∧ r.error = some e)

/-- Checked on an already lower-cased character list: no position starts a
match of one of the five split keywords. -/
def lowerKwFree : List Char → Bool
  | [] => true
  | c :: r =>
    (!prefAt ['s', 't', 'e', 'p'] (c :: r)
      && !prefAt ['f', 'i', 'r', 's', 't'] (c :: r)
      && !prefAt ['t', 'h', 'e', 'n'] (c :: r)
      && !prefAt ['n', 'e', 'x', 't'] (c :: r)
      && !prefAt ['f', 'i', 'n', 'a', 'l', 'l', 'y'] (c :: r))
    && lowerKwFree r

/-- An already lower-cased character list on which the split regex can
match nowhere: it has no digits and no keyword match at any position. -/
def lowerInert (L : List Char) : Bool :=
  L.all (fun c => !isDigitCh c) && lowerKwFree L

/-! ## Demonstration data used by witnesses and counterexamples -/

/-- A successful ledger row used in concrete scenarios. -/
def demoOkRec : UsageRecord :=
  { id := 1, tier := "SIMPLE", model := "minimax/minimax-01",
    inputTokens := 8, outputTokens := 4, cost := 127/10000000,
    success := true, attempts := 1, error := none }

/-- A failed ledger row used in concrete scenarios. -/
def demoFailRec : UsageRecord :=
  { id := 1, tier := "MEDIUM", model := "anthropic/claude-3-5-haiku-20241022",
    inputTokens := 0, outputTokens := 0, cost := 0,
    success := false, attempts := 1, error := some "temporarily unavailable" }

/-- A tracker holding exactly one failed record and no successful one. -/
def demoFailOnlyTracker : CostTracker :=
  { requests := [demoFailRec], baselineModel := mkCostTracker.baselineModel }

/-- A tracker holding one successful and one failed record. -/
def demoMixedTracker : CostTracker :=
  { requests := [demoOkRec, { demoFailRec with id := 2, attempts := 2 }],
    baselineModel := mkCostTracker.baselineModel }

/-- A tracker with one successful zero-cost record carrying one million
input tokens: actual cost 0, baseline cost 90. -/
def demoZeroCostTracker : CostTracker :=
  { requests := [{ id := 1, tier := "SIMPLE", model := "minimax/minimax-01",
                   inputTokens := 1000000, outputTokens := 0, cost := 0,
                   success := true, attempts := 1, error := none }],
    baselineModel := mkCostTracker.baselineModel }

/-- A one-record tracker for the `getRecentRequests` claims. -/
def demoRecentTracker : CostTracker :=
  { requests := [demoOkRec], baselineModel := mkCostTracker.baselineModel }

/-- A backend that always succeeds. -/
def demoOkBackend : Backend := fun _ =>
  .ok { content := "ok", usage := { input := 1, output := 0, total := 1 } }

/-- A backend on which every tier fails. -/
def demoFailBackend : Backend := fun _ => .error "backend down"

/-- C2's base text: 501 characters, whose only code signal is the
word-boundary match of `/\bfunction\b/i` at its very end. -/
def cexA : List Char := List.replicate 492 'a' ++ " function".toList

/-- C2's extended text: `cexA` with 1000 letters appended, which destroys
the word boundary after "function" (it is followed by a word character),
so the text no longer matches any code pattern. -/
def cexB : List Char := cexA ++ List.replicate 1000 'a'

/-! ## General helper lemmas -/

theorem filter_not_length {α : Type} (p : α → Bool) (l : List α) :
    (l.filter (fun x => !p x)).length = l.length - (l.filter p).length := by
  induction l with
  | nil => simp
  | cons a l ih =>
    by_cases h : p a = true
    · simp [List.filter_cons, h, ih]
    · have h' : p a = false := by simpa using h
      have hle : (l.filter p).length ≤ l.length := l.length_filter_le p
      simp [List.filter_cons, h', ih]
      omega

/-! ## C3 — tier decision precedence -/

/-- C3: for every text, the tier decision follows exactly the precedence
complexityScore ≥ 60 → COMPLEX; hasCode ∧ reasoningLevel ≥ 5 → COMPLEX;
tokens > 500 → COMPLEX; complexityScore ≥ 30 → MEDIUM; hasCode → MEDIUM;
reasoningLevel ≥ 3 → MEDIUM; tokens > 200 → MEDIUM; otherwise SIMPLE —
first match wins (each branch is conditioned on the failure of all the
earlier ones). -/
theorem determineTier_precedence (s : List Char) (m : ComplexityMetrics)
    (_hm : m = calculateMetrics s) :
    (60 ≤ m.complexityScore → determineTier m = .COMPLEX)
    ∧ (m.complexityScore < 60 → (m.hasCode = true ∧ 5 ≤ m.reasoningLevel) →
        determineTier m = .COMPLEX)
    ∧ (m.complexityScore < 60 → ¬(m.hasCode = true ∧ 5 ≤ m.reasoningLevel) →
        500 < m.tokens → determineTier m = .COMPLEX)
    ∧ (m.complexityScore < 60 → ¬(m.hasCode = true ∧ 5 ≤ m.reasoningLevel) →
        m.tokens ≤ 500 → 30 ≤ m.complexityScore → determineTier m = .MEDIUM)
    ∧ (m.complexityScore < 30 → ¬(m.hasCode = true ∧ 5 ≤ m.reasoningLevel) →
        m.tokens ≤ 500 → m.hasCode = true → determineTier m = .MEDIUM)
    ∧ (m.complexityScore < 30 → m.tokens ≤ 500 → m.hasCode = false →
        3 ≤ m.reasoningLevel → determineTier m = .MEDIUM)
    ∧ (m.complexityScore < 30 → m.tokens ≤ 500 → m.hasCode = false →
        m.reasoningLevel < 3 → 200 < m.tokens → determineTier m = .MEDIUM)
    ∧ (m.complexityScore < 30 → m.hasCode = false → m.reasoningLevel < 3 →
        m.tokens ≤ 200 → determineTier m = .SIMPLE) := by
  refine ⟨?_, ?_, ?_, ?_, ?_, ?_, ?_, ?_⟩
  · intro h1
    unfold determineTier
    rw [if_pos h1]
  · intro h1 h2
    unfold determineTier
    rw [if_neg (by omega), if_pos (by simp [h2.1, h2.2])]
  · intro h1 h2 h3
    unfold determineTier
    rw [if_neg (by omega), if_neg (by simpa using h2), if_pos h3]
  · intro h1 h2 h3 h4
    unfold determineTier
    rw [if_neg (by omega), if_neg (by simpa using h2), if_neg (by omega),
      if_pos h4]
  · intro h1 h2 h3 h4
    unfold determineTier
    rw [if_neg (by omega), if_neg (by simpa using h2), if_neg (by omega),
      if_neg (by omega), if_pos h4]
  · intro h1 h2 h3 h4
    unfold determineTier
    rw [if_neg (by omega), if_neg (by simp [h3]), if_neg (by omega),
      if_neg (by omega), if_neg (by simp [h3]), if_pos h4]
  · intro h1 h2 h3 h4 h5
    unfold determineTier
    rw [if_neg (by omega), if_neg (by simp [h3]), if_neg (by omega),
      if_neg (by omega), if_neg (by simp [h3]), if_neg (by omega), if_pos h5]
  · intro h1 h2 h3 h4
    unfold determineTier
    rw [if_neg (by omega), if_neg (by simp [h2]), if_neg (by omega),
      if_neg (by omega), if_neg (by simp [h2]), if_neg (by omega),
      if_neg (by omega)]

/-- Witness for C3 at the empty text (score 0, no code, no reasoning,
0 tokens → SIMPLE). -/
theorem determineTier_precedence_witness :
    determineTier (calculateMetrics []) = Tier.SIMPLE := by
  have h := determineTier_precedence [] (calculateMetrics []) rfl
  exact h.2.2.2.2.2.2.2 (by decide) (by decide) (by decide) (by decide)

/-! ## C4 — getModelInfo on unknown tiers -/

/-- C4 counterexample: the claim says an unknown tier fails with a
`ConfigurationError`, but `getModelInfo` is a bare property read: for the
unknown tier `"ULTRA"` it returns the value `undefined` (here `none`)
normally — no error of any kind is raised, and no `ConfigurationError`
exists anywhere in the code. -/
theorem getModelInfo_unknown_returns_undefined :
    (getModelInfo defaultModels "ULTRA").isNone = true := rfl

/-- C4 as amended: an unknown tier yields `undefined` (no configuration,
no error); each known tier yields its `ModelConfig`. -/
theorem getModelInfo_total (s : String)
    (h1 : s ≠ "SIMPLE") (h2 : s ≠ "MEDIUM") (h3 : s ≠ "COMPLEX") :
    getModelInfo defaultModels s = none
    ∧ (getModelInfo defaultModels "SIMPLE").isSome = true
    ∧ (getModelInfo defaultModels "MEDIUM").isSome = true
    ∧ (getModelInfo defaultModels "COMPLEX").isSome = true := by
  refine ⟨?_, rfl, rfl, rfl⟩
  simp [getModelInfo, defaultModels, h1, h2, h3]

/-- Witness for C4 at the concrete unknown tier `"NANO"`. -/
theorem getModelInfo_total_witness :
    getModelInfo defaultModels "NANO" = none
    ∧ (getModelInfo defaultModels "SIMPLE").isSome = true
    ∧ (getModelInfo defaultModels "MEDIUM").isSome = true
    ∧ (getModelInfo defaultModels "COMPLEX").isSome = true :=
  getModelInfo_total "NANO" (by decide) (by decide) (by decide)

/-! ## C5 — statistics over the full record sequence -/

/-- C5 counterexample: with one failed record and no successful one,
`calculateStats` takes its early return: `totalRequests` is 0 although one
record was appended, and `failedRequests` is not even present (JS
`undefined`), while the claim demands 1 for both. -/
theorem calculateStats_ignores_failures_when_no_success :
    demoFailOnlyTracker.requests.length = 1
    ∧ (calculateStats demoFailOnlyTracker).totalRequests = 0
    ∧ (calculateStats demoFailOnlyTracker).failedRequests = none :=
  ⟨rfl, rfl, rfl⟩

/-- C5 as amended: whenever at least one successful record exists,
`getStatistics` is derived from the full record sequence — `totalRequests`
is the number of all records appended and `failedRequests` the number of
failed ones; with no successful record the early return reports the zero
statistics instead. -/
theorem calculateStats_counts (t : CostTracker)
    (h : 0 < (t.requests.filter (fun r => r.success)).length) :
    (calculateStats t).totalRequests = t.requests.length
    ∧ (calculateStats t).failedRequests =
        some ((t.requests.filter (fun r => !r.success)).length) := by
  have hne : ¬((t.requests.filter (fun r => r.success)).length = 0) := by omega
  unfold calculateStats
  rw [if_neg hne]
  exact ⟨rfl, by rw [filter_not_length (fun r => r.success) t.requests]⟩

/-- Witness for C5 on a tracker with one successful and one failed record:
totalRequests 2, failedRequests 1. -/
theorem calculateStats_counts_witness :
    (calculateStats demoMixedTracker).totalRequests
        = demoMixedTracker.requests.length
    ∧ (calculateStats demoMixedTracker).failedRequests =
        some ((demoMixedTracker.requests.filter (fun r => !r.success)).length) :=
  calculateStats_counts demoMixedTracker (by decide)

/-! ## C6 — savings percent and cost multiplier guards -/

/-- C6: the savings-percent half of the claim holds (guarded by
baseline > 0), but the multiplier is guarded by `baselineCost > 0`, not by
`totalCost ≠ 0`: on a ledger whose only successful record has a million
input tokens at cost 0, the code evaluates `baselineCost / totalCost` =
`90 / 0`, an actual division by zero (JS `Infinity`), where the claim—and
the spec's stated intent "to avoid division by zero"—requires 0. -/
theorem stats_multiplier_div_by_zero :
    (calculateStats demoZeroCostTracker).totalCost = 0
    ∧ (calculateStats demoZeroCostTracker).baselineCost = 90
    ∧ (calculateStats demoZeroCostTracker).savingsPercent = 100
    ∧ (calculateStats demoZeroCostTracker).savingsMultiplier = MulVal.inf := by
  refine ⟨?_, ?_, ?_, ?_⟩ <;>
    norm_num [calculateStats, demoZeroCostTracker, mkCostTracker,
      List.filter, List.map, List.sum]

/-! ## C7 — analyze is total; empty string is SIMPLE with score 0 -/

/-- C7: `analyze` is a total function of the text alone — it returns a
(unique) result for every string, in particular it cannot raise and is
deterministic with no side effects — and on the empty string it returns
tier SIMPLE with complexity score 0. -/
theorem analyze_total_empty_simple :
    (∀ s : List Char, ∃ r : AnalysisResult, analyze s = r)
    ∧ (analyze ([] : List Char)).tier = Tier.SIMPLE
    ∧ (analyze ([] : List Char)).metrics.complexityScore = 0 :=
  ⟨fun s => ⟨analyze s, rfl⟩, rfl, rfl⟩

/-! ## C8 — getRecentRequests -/

/-- C8 counterexample: the claim includes n = 0, where it demands the last
0 records (the empty list); but `slice(-0)` is `slice(0)`, so the code
returns all records: on a one-record ledger `recent(0)` has length 1. -/
theorem getRecentRequests_zero_returns_all :
    getRecentRequests demoRecentTracker 0 = [demoOkRec] := rfl

/-- C8 as amended: for every n ≥ 1, `getRecentRequests` returns exactly
the last n records in append order (all of them when fewer exist) and the
ledger is not modified (it is a pure read); for n = 0 the code returns the
whole ledger instead. -/
theorem getRecentRequests_last (t : CostTracker) (n : ℕ) (h : 1 ≤ n) :
    getRecentRequests t n <:+ t.requests
    ∧ (getRecentRequests t n).length = min n t.requests.length := by
  have hne : ¬(n = 0) := by omega
  unfold getRecentRequests
  rw [if_neg hne]
  refine ⟨List.drop_suffix _ _, ?_⟩
  rw [List.length_drop]
  omega

/-- Witness for C8 at n = 1 on a one-record ledger. -/
theorem getRecentRequests_last_witness :
    getRecentRequests demoRecentTracker 1 <:+ demoRecentTracker.requests
    ∧ (getRecentRequests demoRecentTracker 1).length
        = min 1 demoRecentTracker.requests.length :=
  getRecentRequests_last demoRecentTracker 1 (by decide)

/-! ## C9 — ledger sequence ids -/

/-- Core invariant for C9, by induction over the reachable tracker states:
the i-th stored record (0-based i) carries id i + 1. -/
theorem reachable_ids (t : CostTracker) (h : Reachable t) :
    ∀ i (hi : i < t.requests.length), (t.requests.get ⟨i, hi⟩).id = i + 1 := by
  induction h with
  | init bm => intro i hi; simp at hi
  | wipe _ _ => intro i hi; simp [clear] at hi
  | @log t' r _ ih =>
    intro i hi
    simp only [logRequest] at hi ⊢
    rcases Nat.lt_or_ge i t'.requests.length with hlt | hge
    · rw [List.get_append _ hlt]
      exact ih i hlt
    · have hlen : i = t'.requests.length := by
        simp only [List.length_append, List.length_singleton] at hi
        omega
      subst hlen
      simp

/-- C9: at every reachable ledger state the i-th record (1-based) has
sequence id i, the records are strictly ordered by id, and `logRequest`
only appends — it assigns the new record the id `length + 1`, strictly
greater than every existing id, and leaves every existing record
untouched. -/
theorem ledger_append_ids (t : CostTracker) (h : Reachable t) :
    (∀ i (hi : i < t.requests.length), (t.requests.get ⟨i, hi⟩).id = i + 1)
    ∧ List.Pairwise (fun a b => a.id < b.id) t.requests
    ∧ (∀ r : UsageRecord,
        (logRequest t r).requests
          = t.requests ++ [{ r with id := t.requests.length + 1 }])
    ∧ (∀ r' ∈ t.requests, r'.id < t.requests.length + 1) := by
  have hids := reachable_ids t h
  refine ⟨hids, ?_, fun r => rfl, ?_⟩
  · rw [List.pairwise_iff_get]
    intro i j hij
    rw [hids i i.isLt, hids j j.isLt]
    omega
  · intro r' hr'
    obtain ⟨i, hi, rfl⟩ := List.mem_iff_get.mp hr'
    rw [hids i i.isLt]
    omega

/-- Witness for C9 on the tracker reached by two appends from a fresh
tracker. -/
theorem ledger_append_ids_witness :
    List.Pairwise (fun a b => a.id < b.id)
      (logRequest (logRequest mkCostTracker demoOkRec) demoFailRec).requests
    ∧ ∀ r' ∈ (logRequest (logRequest mkCostTracker demoOkRec) demoFailRec).requests,
        r'.id < (logRequest (logRequest mkCostTracker demoOkRec) demoFailRec).requests.length + 1 := by
  have h := ledger_append_ids _
    (Reachable.log demoFailRec (Reachable.log demoOkRec
      (Reachable.init mkCostTracker.baselineModel)))
  exact ⟨h.2.1, h.2.2.2⟩

/-! ## C10 — route with a forced tier outside the three known tiers -/

/-- C10 counterexample: the empty string is a forceTier value outside
{SIMPLE, MEDIUM, COMPLEX}, but it is falsy, so `options.forceTier ||
analysis.tier` discards it: `route` classifies the prompt, invokes the
backend and appends a success record — it does not fail and the ledger
grows, contradicting the claim as stated. -/
theorem route_empty_force_tier_routes_normally :
    ("" ≠ "SIMPLE" ∧ "" ≠ "MEDIUM" ∧ "" ≠ "COMPLEX")
    ∧ (∃ v, (route defaultModels "Hi".toList (some "") demoOkBackend
        mkCostTracker).1 = Except.ok v)
    ∧ (route defaultModels "Hi".toList (some "") demoOkBackend
        mkCostTracker).2.requests.length = 1 := by
  have htier : tierStr (analyze ['H', 'i']).tier = "SIMPLE" := rfl
  refine ⟨by decide, ?_, ?_⟩ <;>
    simp [route, routeAux, startTier, htier, defaultModels, demoOkBackend,
      logRequest, mkCostTracker]

/-- C10 as amended: for every truthy (non-empty) forceTier string outside
{SIMPLE, MEDIUM, COMPLEX}, `route` fails with the `TypeError` raised by
reading `displayName` of the `undefined` model config (an error that is
neither a ConfigurationError — which the code never defines — nor the
all-tiers-exhausted error), invokes no backend, performs no fallback, and
leaves the ledger unchanged; a falsy forceTier (the empty string) is
instead ignored in favour of the classifier's tier. -/
theorem route_unknown_forced_tier (prompt : List Char) (s : String)
    (h0 : s ≠ "") (h1 : s ≠ "SIMPLE") (h2 : s ≠ "MEDIUM") (h3 : s ≠ "COMPLEX")
    (backend : Backend) (tracker : CostTracker) :
    route defaultModels prompt (some s) backend tracker
      = (Except.error RouteError.typeError, tracker) := by
  simp [route, routeAux, startTier, defaultModels, h0, h1, h2, h3]

/-- Witness for C10 with the concrete forced tier `"ULTRA"`: the result is
the `TypeError` rejection and the ledger is returned untouched, for every
backend — here the always-succeeding one, which is therefore never
invoked. -/
theorem route_unknown_forced_tier_witness :
    route defaultModels "Hi".toList (some "ULTRA") demoOkBackend mkCostTracker
      = (Except.error RouteError.typeError, mkCostTracker) :=
  route_unknown_forced_tier "Hi".toList "ULTRA" (by decide) (by decide)
    (by decide) (by decide) demoOkBackend mkCostTracker

/-! ## C1 — route's failure handling and fallback protocol -/

theorem protocolUnknown (backend : Backend) (an : AnalysisResult)
    (t : String) (tracker : CostTracker)
    (res : Except RouteError RouteSuccess) (tk' : CostTracker)
    (hm : defaultModels t = none)
    (hrun : routeAux defaultModels backend an t 0 tracker = (res, tk')) :
    RouteProtocol backend t tracker res tk' := by
  simp [routeAux, hm] at hrun
  obtain ⟨hres, htk⟩ := hrun
  subst hres htk
  have hnew : newRecords tracker tracker = [] := by simp [newRecords]
  unfold RouteProtocol
  rw [hnew]
  refine ⟨List.prefix_refl _, ?_, ?_, ?_, ?_, ?_, ?_, ?_, ?_, ?_, ?_, ?_, ?_⟩
  · intro r hr
    simp at hr
  · intro r hr
    simp at hr
  · simp
  · simp
  · simp
  · intro i hi
    simp at hi
  · intro i hi
    simp at hi
  · intro hsome
    rw [hm] at hsome
    simp at hsome
  · intro _
    exact ⟨rfl, rfl⟩
  · intro r hr
    simp at hr
  · intro r hr
    simp at hr
  · intro e' he'
    simp at he'

theorem protocolOkFirst (backend : Backend) (an : AnalysisResult)
    (t : String) (cfg : ModelConfig) (resp : BackendResponse)
    (tracker : CostTracker) (res : Except RouteError RouteSuccess)
    (tk' : CostTracker) (hm : defaultModels t = some cfg)
    (hok : backend t = Except.ok resp)
    (hrun : routeAux defaultModels backend an t 0 tracker = (res, tk')) :
    RouteProtocol backend t tracker res tk' := by
  simp [routeAux, hm, hok, logRequest] at hrun
  obtain ⟨hres, htk⟩ := hrun
  subst hres htk
  have hnew : newRecords tracker
      { tracker with requests := tracker.requests ++
          [{ id := tracker.requests.length + 1, tier := t,
             model := cfg.name, inputTokens := resp.usage.input,
             outputTokens := resp.usage.output,
             cost := calculateCost cfg resp.usage,
             success := true, attempts := 1, error := none }] }
      = [{ id := tracker.requests.length + 1, tier := t,
           model := cfg.name, inputTokens := resp.usage.input,
           outputTokens := resp.usage.output,
           cost := calculateCost cfg resp.usage,
           success := true, attempts := 1, error := none }] := by
    simp [newRecords]
  unfold RouteProtocol
  rw [hnew]
  refine ⟨List.prefix_append _ _, ?_, ?_, ?_, ?_, ?_, ?_, ?_, ?_, ?_, ?_, ?_, ?_⟩
  · intro r hr hs
    simp at hr
    subst hr
    simp at hs
  · intro r hr
    simp at hr
    subst hr
    constructor
    · intro _
      exact ⟨resp, hok⟩
    · intro _
      rfl
  · simp
  · simp
  · simp
  · intro i hi
    simp only [List.length_cons, List.length_nil] at hi
    interval_cases i
    rfl
  · intro i hi hs
    simp only [List.length_cons, List.length_nil] at hi
    interval_cases i
    simp at hs
  · intro _
    exact ⟨_, _, rfl, rfl⟩
  · intro hn
    rw [hm] at hn
    exact Option.noConfusion hn
  · intro r hr hs
    simp only [List.getLast?_singleton, Option.some.injEq] at hr
    subst hr
    simp at hs
  · intro r hr _
    simp only [List.getLast?_singleton, Option.some.injEq] at hr
    subst hr
    exact ⟨_, rfl, rfl, rfl⟩
  · intro e' he'
    simp at he'

theorem protocolFromComplex (backend : Backend) (an : AnalysisResult)
    (tracker : CostTracker) (res : Except RouteError RouteSuccess)
    (tk' : CostTracker)
    (hrun : routeAux defaultModels backend an "COMPLEX" 0 tracker = (res, tk')) :
    RouteProtocol backend "COMPLEX" tracker res tk' := by
  cases hb : backend "COMPLEX" with
  | ok resp =>
    exact protocolOkFirst backend an "COMPLEX" complexConfig resp tracker res
      tk' rfl hb hrun
  | error e =>
    simp [routeAux, defaultModels, fallbackChain, logRequest, hb] at hrun
    obtain ⟨hres, htk⟩ := hrun
    subst hres htk
    have hnew : newRecords tracker
        { tracker with requests := tracker.requests ++
            [{ id := tracker.requests.length + 1, tier := "COMPLEX",
               model := complexConfig.name, inputTokens := 0,
               outputTokens := 0, cost := 0, success := false,
               attempts := 1, error := some e }] }
        = [{ id := tracker.requests.length + 1, tier := "COMPLEX",
             model := complexConfig.name, inputTokens := 0,
             outputTokens := 0, cost := 0, success := false,
             attempts := 1, error := some e }] := by
      simp [newRecords]
    unfold RouteProtocol
    rw [hnew]
    refine ⟨List.prefix_append _ _, ?_, ?_, ?_, ?_, ?_, ?_, ?_, ?_, ?_, ?_, ?_, ?_⟩
    · intro r hr hs
      simp at hr
      subst hr
      exact ⟨rfl, rfl, rfl, e, hb, rfl⟩
    · intro r hr
      simp at hr
      subst hr
      constructor
      · intro hs
        simp at hs
      · rintro ⟨resp', hresp⟩
        rw [hb] at hresp
        exact Except.noConfusion hresp
    · simp
    · simp
    · simp
    · intro i hi
      simp only [List.length_cons, List.length_nil] at hi
      interval_cases i
      rfl
    · intro i hi hs
      simp only [List.length_cons, List.length_nil] at hi
      interval_cases i
      simp [fallbackChain]
    · intro _
      exact ⟨_, _, rfl, rfl⟩
    · intro hn
      simp [defaultModels] at hn
    · intro r hr _
      simp only [List.getLast?_singleton, Option.some.injEq] at hr
      subst hr
      exact ⟨e, rfl, rfl⟩
    · intro r hr hs
      simp only [List.getLast?_singleton, Option.some.injEq] at hr
      subst hr
      simp at hs
    · intro e' he'
      injection he' with h
      injection h with h
      subst h
      exact ⟨_, rfl, rfl, rfl⟩

theorem protocolFromMedium (backend : Backend) (an : AnalysisResult)
    (tracker : CostTracker) (res : Except RouteError RouteSuccess)
    (tk' : CostTracker)
    (hrun : routeAux defaultModels backend an "MEDIUM" 0 tracker = (res, tk')) :
    RouteProtocol backend "MEDIUM" tracker res tk' := by
  cases hb1 : backend "MEDIUM" with
  | ok resp =>
    exact protocolOkFirst backend an "MEDIUM" mediumConfig resp tracker res
      tk' rfl hb1 hrun
  | error e1 =>
    cases hb2 : backend "COMPLEX" with
    | ok resp =>
      have heval : routeAux defaultModels backend an "MEDIUM" 0 tracker
          = (Except.ok ({ tier := "COMPLEX",
                            model := complexConfig.name,
                            displayName := complexConfig.displayName,
                            response := resp.content, usage := resp.usage,
                            cost := calculateCost complexConfig resp.usage,
                            analysis := an, attempts := 2 } : RouteSuccess),
             { tracker with requests := tracker.requests ++
                 [{ id := tracker.requests.length + 1, tier := "MEDIUM",
                    model := mediumConfig.name, inputTokens := 0,
                    outputTokens := 0, cost := 0, success := false,
                    attempts := 1, error := some e1 },
                  { id := tracker.requests.length + 2, tier := "COMPLEX",
                    model := complexConfig.name,
                    inputTokens := resp.usage.input,
                    outputTokens := resp.usage.output,
                    cost := calculateCost complexConfig resp.usage,
                    success := true, attempts := 2, error := none }] }) := by
        simp [routeAux, defaultModels, fallbackChain, logRequest, hb1, hb2,
          List.append_assoc]
      rw [heval] at hrun
      have hres : _ = res := congrArg Prod.fst hrun
      have htk : _ = tk' := congrArg Prod.snd hrun
      subst hres htk
      have hnew : newRecords tracker
          { tracker with requests := tracker.requests ++
              [{ id := tracker.requests.length + 1, tier := "MEDIUM",
                 model := mediumConfig.name, inputTokens := 0,
                 outputTokens := 0, cost := 0, success := false,
                 attempts := 1, error := some e1 },
               { id := tracker.requests.length + 2, tier := "COMPLEX",
                 model := complexConfig.name,
                 inputTokens := resp.usage.input,
                 outputTokens := resp.usage.output,
                 cost := calculateCost complexConfig resp.usage,
                 success := true, attempts := 2, error := none }] }
          = [{ id := tracker.requests.length + 1, tier := "MEDIUM",
               model := mediumConfig.name, inputTokens := 0,
               outputTokens := 0, cost := 0, success := false,
               attempts := 1, error := some e1 },
             { id := tracker.requests.length + 2, tier := "COMPLEX",
               model := complexConfig.name,
               inputTokens := resp.usage.input,
               outputTokens := resp.usage.output,
               cost := calculateCost complexConfig resp.usage,
               success := true, attempts := 2, error := none }] := by
        simp [newRecords]
      unfold RouteProtocol
      rw [hnew]
      refine ⟨List.prefix_append _ _, ?_, ?_, ?_, ?_, ?_, ?_, ?_, ?_, ?_, ?_,
        ?_, ?_⟩
      · intro r hr hs
        simp only [List.mem_cons, List.not_mem_nil, or_false] at hr
        rcases hr with rfl | rfl
        · exact ⟨rfl, rfl, rfl, e1, hb1, rfl⟩
        · simp at hs
      · intro r hr
        simp only [List.mem_cons, List.not_mem_nil, or_false] at hr
        rcases hr with rfl | rfl
        · constructor
          · intro hs
            simp at hs
          · rintro ⟨resp', hresp⟩
            rw [hb1] at hresp
            exact Except.noConfusion hresp
        · constructor
          · intro _
            exact ⟨resp, hb2⟩
          · intro _
            rfl
      · simp [List.chain'_cons, fallbackChain]
      · simp
      · simp
      · intro i hi
        simp only [List.length_cons, List.length_nil] at hi
        interval_cases i <;> rfl
      · intro i hi hs
        simp only [List.length_cons, List.length_nil] at hi
        interval_cases i
        · simp [fallbackChain]
        · simp at hs
      · intro _
        exact ⟨_, _, rfl, rfl⟩
      · intro hn
        simp [defaultModels] at hn
      · intro r hr hs
        simp only [List.getLast?_cons_cons, List.getLast?_singleton,
          Option.some.injEq] at hr
        subst hr
        simp at hs
      · intro r hr _
        simp only [List.getLast?_cons_cons, List.getLast?_singleton,
          Option.some.injEq] at hr
        subst hr
        exact ⟨_, rfl, rfl, rfl⟩
      · intro e' he'
        simp at he'
    | error e2 =>
      have heval : routeAux defaultModels backend an "MEDIUM" 0 tracker
          = ((Except.error (RouteError.allFailed e2) :
                Except RouteError RouteSuccess),
             { tracker with requests := tracker.requests ++
                 [{ id := tracker.requests.length + 1, tier := "MEDIUM",
                    model := mediumConfig.name, inputTokens := 0,
                    outputTokens := 0, cost := 0, success := false,
                    attempts := 1, error := some e1 },
                  { id := tracker.requests.length + 2, tier := "COMPLEX",
                    model := complexConfig.name, inputTokens := 0,
                    outputTokens := 0, cost := 0, success := false,
                    attempts := 2, error := some e2 }] }) := by
        simp [routeAux, defaultModels, fallbackChain, logRequest, hb1, hb2,
          List.append_assoc]
      rw [heval] at hrun
      have hres : _ = res := congrArg Prod.fst hrun
      have htk : _ = tk' := congrArg Prod.snd hrun
      subst hres htk
      have hnew : newRecords tracker
          { tracker with requests := tracker.requests ++
              [{ id := tracker.requests.length + 1, tier := "MEDIUM",
                 model := mediumConfig.name, inputTokens := 0,
                 outputTokens := 0, cost := 0, success := false,
                 attempts := 1, error := some e1 },
               { id := tracker.requests.length + 2, tier := "COMPLEX",
                 model := complexConfig.name, inputTokens := 0,
                 outputTokens := 0, cost := 0, success := false,
                 attempts := 2, error := some e2 }] }
          = [{ id := tracker.requests.length + 1, tier := "MEDIUM",
               model := mediumConfig.name, inputTokens := 0,
               outputTokens := 0, cost := 0, success := false,
               attempts := 1, error := some e1 },
             { id := tracker.requests.length + 2, tier := "COMPLEX",
               model := complexConfig.name, inputTokens := 0,
               outputTokens := 0, cost := 0, success := false,
               attempts := 2, error := some e2 }] := by
        simp [newRecords]
      unfold RouteProtocol
      rw [hnew]
      refine ⟨List.prefix_append _ _, ?_, ?_, ?_, ?_, ?_, ?_, ?_, ?_, ?_, ?_,
        ?_, ?_⟩
      · intro r hr hs
        simp only [List.mem_cons, List.not_mem_nil, or_false] at hr
        rcases hr with rfl | rfl
        · exact ⟨rfl, rfl, rfl, e1, hb1, rfl⟩
        · exact ⟨rfl, rfl, rfl, e2, hb2, rfl⟩
      · intro r hr
        simp only [List.mem_cons, List.not_mem_nil, or_false] at hr
        rcases hr with rfl | rfl
        · constructor
          · intro hs
            simp at hs
          · rintro ⟨resp', hresp⟩
            rw [hb1] at hresp
            exact Except.noConfusion hresp
        · constructor
          · intro hs
            simp at hs
          · rintro ⟨resp', hresp⟩
            rw [hb2] at hresp
            exact Except.noConfusion hresp
      · simp [List.chain'_cons, fallbackChain]
      · simp
      · simp
      · intro i hi
        simp only [List.length_cons, List.length_nil] at hi
        interval_cases i <;> rfl
      · intro i hi hs
        simp only [List.length_cons, List.length_nil] at hi
        interval_cases i
        · simp [fallbackChain]
        · simp [fallbackChain]
      · intro _
        exact ⟨_, _, rfl, rfl⟩
      · intro hn
        simp [defaultModels] at hn
      · intro r hr _
        simp only [List.getLast?_cons_cons, List.getLast?_singleton,
          Option.some.injEq] at hr
        subst hr
        exact ⟨e2, rfl, rfl⟩
      · intro r hr hs
        simp only [List.getLast?_cons_cons, List.getLast?_singleton,
          Option.some.injEq] at hr
        subst hr
        simp at hs
      · intro e' he'
        injection he' with h
        injection h with h
        subst h
        exact ⟨_, rfl, rfl, rfl⟩

theorem protocolFromSimple (backend : Backend) (an : AnalysisResult)
    (tracker : CostTracker) (res : Except RouteError RouteSuccess)
    (tk' : CostTracker)
    (hrun : routeAux defaultModels backend an "SIMPLE" 0 tracker = (res, tk')) :
    RouteProtocol backend "SIMPLE" tracker res tk' := by
  cases hb1 : backend "SIMPLE" with
  | ok resp =>
    exact protocolOkFirst backend an "SIMPLE" simpleConfig resp tracker res
      tk' rfl hb1 hrun
  | error e1 =>
    cases hb2 : backend "MEDIUM" with
    | ok resp =>
      have heval : routeAux defaultModels backend an "SIMPLE" 0 tracker
          = (Except.ok ({ tier := "MEDIUM",
                            model := mediumConfig.name,
                            displayName := mediumConfig.displayName,
                            response := resp.content, usage := resp.usage,
                            cost := calculateCost mediumConfig resp.usage,
                            analysis := an, attempts := 2 } : RouteSuccess),
             { tracker with requests := tracker.requests ++
                 [{ id := tracker.requests.length + 1, tier := "SIMPLE",
                    model := simpleConfig.name, inputTokens := 0,
                    outputTokens := 0, cost := 0, success := false,
                    attempts := 1, error := some e1 },
                  { id := tracker.requests.length + 2, tier := "MEDIUM",
                    model := mediumConfig.name,
                    inputTokens := resp.usage.input,
                    outputTokens := resp.usage.output,
                    cost := calculateCost mediumConfig resp.usage,
                    success := true, attempts := 2, error := none }] }) := by
        simp [routeAux, defaultModels, fallbackChain, logRequest, hb1, hb2,
          List.append_assoc]
      rw [heval] at hrun
      have hres : _ = res := congrArg Prod.fst hrun
      have htk : _ = tk' := congrArg Prod.snd hrun
      subst hres htk
      have hnew : newRecords tracker
          { tracker with requests := tracker.requests ++
              [{ id := tracker.requests.length + 1, tier := "SIMPLE",
                 model := simpleConfig.name, inputTokens := 0,
                 outputTokens := 0, cost := 0, success := false,
                 attempts := 1, error := some e1 },
               { id := tracker.requests.length + 2, tier := "MEDIUM",
                 model := mediumConfig.name,
                 inputTokens := resp.usage.input,
                 outputTokens := resp.usage.output,
                 cost := calculateCost mediumConfig resp.usage,
                 success := true, attempts := 2, error := none }] }
          = [{ id := tracker.requests.length + 1, tier := "SIMPLE",
               model := simpleConfig.name, inputTokens := 0,
               outputTokens := 0, cost := 0, success := false,
               attempts := 1, error := some e1 },
             { id := tracker.requests.length + 2, tier := "MEDIUM",
               model := mediumConfig.name,
               inputTokens := resp.usage.input,
               outputTokens := resp.usage.output,
               cost := calculateCost mediumConfig resp.usage,
               success := true, attempts := 2, error := none }] := by
        simp [newRecords]
      unfold RouteProtocol
      rw [hnew]
      refine ⟨List.prefix_append _ _, ?_, ?_, ?_, ?_, ?_, ?_, ?_, ?_, ?_, ?_,
        ?_, ?_⟩
      · intro r hr hs
        simp only [List.mem_cons, List.not_mem_nil, or_false] at hr
        rcases hr with rfl | rfl
        · exact ⟨rfl, rfl, rfl, e1, hb1, rfl⟩
        · simp at hs
      · intro r hr
        simp only [List.mem_cons, List.not_mem_nil, or_false] at hr
        rcases hr with rfl | rfl
        · constructor
          · intro hs
            simp at hs
          · rintro ⟨resp', hresp⟩
            rw [hb1] at hresp
            exact Except.noConfusion hresp
        · constructor
          · intro _
            exact ⟨resp, hb2⟩
          · intro _
            rfl
      · simp [List.chain'_cons, fallbackChain]
      · simp
      · simp
      · intro i hi
        simp only [List.length_cons, List.length_nil] at hi
        interval_cases i <;> rfl
      · intro i hi hs
        simp only [List.length_cons, List.length_nil] at hi
        interval_cases i
        · simp [fallbackChain]
        · simp at hs
      · intro _
        exact ⟨_, _, rfl, rfl⟩
      · intro hn
        simp [defaultModels] at hn
      · intro r hr hs
        simp only [List.getLast?_cons_cons, List.getLast?_singleton,
          Option.some.injEq] at hr
        subst hr
        simp at hs
      · intro r hr _
        simp only [List.getLast?_cons_cons, List.getLast?_singleton,
          Option.some.injEq] at hr
        subst hr
        exact ⟨_, rfl, rfl, rfl⟩
      · intro e' he'
        simp at he'
    | error e2 =>
      cases hb3 : backend "COMPLEX" with
      | ok resp =>
        have heval : routeAux defaultModels backend an "SIMPLE" 0 tracker
            = (Except.ok ({ tier := "COMPLEX",
                              model := complexConfig.name,
                              displayName := complexConfig.displayName,
                              response := resp.content, usage := resp.usage,
                              cost := calculateCost complexConfig resp.usage,
                              analysis := an, attempts := 3 } : RouteSuccess),
               { tracker with requests := tracker.requests ++
                   [{ id := tracker.requests.length + 1, tier := "SIMPLE",
                      model := simpleConfig.name, inputTokens := 0,
                      outputTokens := 0, cost := 0, success := false,
                      attempts := 1, error := some e1 },
                    { id := tracker.requests.length + 2, tier := "MEDIUM",
                      model := mediumConfig.name, inputTokens := 0,
                      outputTokens := 0, cost := 0, success := false,
                      attempts := 2, error := some e2 },
                    { id := tracker.requests.length + 3, tier := "COMPLEX",
                      model := complexConfig.name,
                      inputTokens := resp.usage.input,
                      outputTokens := resp.usage.output,
                      cost := calculateCost complexConfig resp.usage,
                      success := true, attempts := 3, error := none }] }) := by
          simp [routeAux, defaultModels, fallbackChain, logRequest, hb1, hb2,
            hb3, List.append_assoc]
        rw [heval] at hrun
        have hres : _ = res := congrArg Prod.fst hrun
        have htk : _ = tk' := congrArg Prod.snd hrun
        subst hres htk
        have hnew : newRecords tracker
            { tracker with requests := tracker.requests ++
                [{ id := tracker.requests.length + 1, tier := "SIMPLE",
                   model := simpleConfig.name, inputTokens := 0,
                   outputTokens := 0, cost := 0, success := false,
                   attempts := 1, error := some e1 },
                 { id := tracker.requests.length + 2, tier := "MEDIUM",
                   model := mediumConfig.name, inputTokens := 0,
                   outputTokens := 0, cost := 0, success := false,
                   attempts := 2, error := some e2 },
                 { id := tracker.requests.length + 3, tier := "COMPLEX",
                   model := complexConfig.name,
                   inputTokens := resp.usage.input,
                   outputTokens := resp.usage.output,
                   cost := calculateCost complexConfig resp.usage,
                   success := true, attempts := 3, error := none }] }
            = [{ id := tracker.requests.length + 1, tier := "SIMPLE",
                 model := simpleConfig.name, inputTokens := 0,
                 outputTokens := 0, cost := 0, success := false,
                 attempts := 1, error := some e1 },
               { id := tracker.requests.length + 2, tier := "MEDIUM",
                 model := mediumConfig.name, inputTokens := 0,
                 outputTokens := 0, cost := 0, success := false,
                 attempts := 2, error := some e2 },
               { id := tracker.requests.length + 3, tier := "COMPLEX",
                 model := complexConfig.name,
                 inputTokens := resp.usage.input,
                 outputTokens := resp.usage.output,
                 cost := calculateCost complexConfig resp.usage,
                 success := true, attempts := 3, error := none }] := by
          simp [newRecords]
        unfold RouteProtocol
        rw [hnew]
        refine ⟨List.prefix_append _ _, ?_, ?_, ?_, ?_, ?_, ?_, ?_, ?_, ?_,
          ?_, ?_, ?_⟩
        · intro r hr hs
          simp only [List.mem_cons, List.not_mem_nil, or_false] at hr
          rcases hr with rfl | rfl | rfl
          · exact ⟨rfl, rfl, rfl, e1, hb1, rfl⟩
          · exact ⟨rfl, rfl, rfl, e2, hb2, rfl⟩
          · simp at hs
        · intro r hr
          simp only [List.mem_cons, List.not_mem_nil, or_false] at hr
          rcases hr with rfl | rfl | rfl
          · constructor
            · intro hs
              simp at hs
            · rintro ⟨resp', hresp⟩
              rw [hb1] at hresp
              exact Except.noConfusion hresp
          · constructor
            · intro hs
              simp at hs
            · rintro ⟨resp', hresp⟩
              rw [hb2] at hresp
              exact Except.noConfusion hresp
          · constructor
            · intro _
              exact ⟨resp, hb3⟩
            · intro _
              rfl
        · simp [List.chain'_cons, fallbackChain]
        · simp
        · simp
        · intro i hi
          simp only [List.length_cons, List.length_nil] at hi
          interval_cases i <;> rfl
        · intro i hi hs
          simp only [List.length_cons, List.length_nil] at hi
          interval_cases i
          · simp [fallbackChain]
          · simp [fallbackChain]
          · simp at hs
        · intro _
          exact ⟨_, _, rfl, rfl⟩
        · intro hn
          simp [defaultModels] at hn
        · intro r hr hs
          simp only [List.getLast?_cons_cons, List.getLast?_singleton,
            Option.some.injEq] at hr
          subst hr
          simp at hs
        · intro r hr _
          simp only [List.getLast?_cons_cons, List.getLast?_singleton,
            Option.some.injEq] at hr
          subst hr
          exact ⟨_, rfl, rfl, rfl⟩
        · intro e' he'
          simp at he'
      | error e3 =>
        have heval : routeAux defaultModels backend an "SIMPLE" 0 tracker
            = ((Except.error (RouteError.allFailed e3) :
                  Except RouteError RouteSuccess),
               { tracker with requests := tracker.requests ++
                   [{ id := tracker.requests.length + 1, tier := "SIMPLE",
                      model := simpleConfig.name, inputTokens := 0,
                      outputTokens := 0, cost := 0, success := false,
                      attempts := 1, error := some e1 },
                    { id := tracker.requests.length + 2, tier := "MEDIUM",
                      model := mediumConfig.name, inputTokens := 0,
                      outputTokens := 0, cost := 0, success := false,
                      attempts := 2, error := some e2 },
                    { id := tracker.requests.length + 3, tier := "COMPLEX",
                      model := complexConfig.name, inputTokens := 0,
                      outputTokens := 0, cost := 0, success := false,
                      attempts := 3, error := some e3 }] }) := by
          simp [routeAux, defaultModels, fallbackChain, logRequest, hb1, hb2,
            hb3, List.append_assoc]
        rw [heval] at hrun
        have hres : _ = res := congrArg Prod.fst hrun
        have htk : _ = tk' := congrArg Prod.snd hrun
        subst hres htk
        have hnew : newRecords tracker
            { tracker with requests := tracker.requests ++
                [{ id := tracker.requests.length + 1, tier := "SIMPLE",
                   model := simpleConfig.name, inputTokens := 0,
                   outputTokens := 0, cost := 0, success := false,
                   attempts := 1, error := some e1 },
                 { id := tracker.requests.length + 2, tier := "MEDIUM",
                   model := mediumConfig.name, inputTokens := 0,
                   outputTokens := 0, cost := 0, success := false,
                   attempts := 2, error := some e2 },
                 { id := tracker.requests.length + 3, tier := "COMPLEX",
                   model := complexConfig.name, inputTokens := 0,
                   outputTokens := 0, cost := 0, success := false,
                   attempts := 3, error := some e3 }] }
            = [{ id := tracker.requests.length + 1, tier := "SIMPLE",
                 model := simpleConfig.name, inputTokens := 0,
                 outputTokens := 0, cost := 0, success := false,
                 attempts := 1, error := some e1 },
               { id := tracker.requests.length + 2, tier := "MEDIUM",
                 model := mediumConfig.name, inputTokens := 0,
                 outputTokens := 0, cost := 0, success := false,
                 attempts := 2, error := some e2 },
               { id := tracker.requests.length + 3, tier := "COMPLEX",
                 model := complexConfig.name, inputTokens := 0,
                 outputTokens := 0, cost := 0, success := false,
                 attempts := 3, error := some e3 }] := by
          simp [newRecords]
        unfold RouteProtocol
        rw [hnew]
        refine ⟨List.prefix_append _ _, ?_, ?_, ?_, ?_, ?_, ?_, ?_, ?_, ?_,
          ?_, ?_, ?_⟩
        · intro r hr hs
          simp only [List.mem_cons, List.not_mem_nil, or_false] at hr
          rcases hr with rfl | rfl | rfl
          · exact ⟨rfl, rfl, rfl, e1, hb1, rfl⟩
          · exact ⟨rfl, rfl, rfl, e2, hb2, rfl⟩
          · exact ⟨rfl, rfl, rfl, e3, hb3, rfl⟩
        · intro r hr
          simp only [List.mem_cons, List.not_mem_nil, or_false] at hr
          rcases hr with rfl | rfl | rfl
          · constructor
            · intro hs
              simp at hs
            · rintro ⟨resp', hresp⟩
              rw [hb1] at hresp
              exact Except.noConfusion hresp
          · constructor
            · intro hs
              simp at hs
            · rintro ⟨resp', hresp⟩
              rw [hb2] at hresp
              exact Except.noConfusion hresp
          · constructor
            · intro hs
              simp at hs
            · rintro ⟨resp', hresp⟩
              rw [hb3] at hresp
              exact Except.noConfusion hresp
        · simp [List.chain'_cons, fallbackChain]
        · simp
        · simp
        · intro i hi
          simp only [List.length_cons, List.length_nil] at hi
          interval_cases i <;> rfl
        · intro i hi hs
          simp only [List.length_cons, List.length_nil] at hi
          interval_cases i
          · simp [fallbackChain]
          · simp [fallbackChain]
          · simp [fallbackChain]
        · intro _
          exact ⟨_, _, rfl, rfl⟩
        · intro hn
          simp [defaultModels] at hn
        · intro r hr _
          simp only [List.getLast?_cons_cons, List.getLast?_singleton,
            Option.some.injEq] at hr
          subst hr
          exact ⟨e3, rfl, rfl⟩
        · intro r hr hs
          simp only [List.getLast?_cons_cons, List.getLast?_singleton,
            Option.some.injEq] at hr
          subst hr
          simp at hs
        · intro e' he'
          injection he' with h
          injection h with h
          subst h
          exact ⟨_, rfl, rfl, rfl⟩

/-- C1: for every text, every forced tier and every backend behaviour, the
call `route(text, opts)` obeys `RouteProtocol` for its starting tier: every
backend attempt — in particular every failed one — appends its record to
the ledger (cost 0, tokens 0 and the error text retained on failure),
also when the call ultimately rejects; consecutive attempts follow the
fixed escalation chain SIMPLE → MEDIUM → COMPLEX, so no tier is attempted
twice and at most 3 attempts are made; after a failure the call escalates
exactly when a next tier exists and the attempt count is below 3, and
otherwise it rejects with the terminal error embedding the most recent
backend error's message (a trailing failed record forces the rejection,
a trailing successful record forces the `Except.ok` return). -/
theorem route_fallback_protocol (prompt : List Char)
    (forceTier : Option String) (backend : Backend) (tracker : CostTracker)
    (res : Except RouteError RouteSuccess) (tk' : CostTracker)
    (hrun : route defaultModels prompt forceTier backend tracker = (res, tk')) :
    RouteProtocol backend (startTier (analyze prompt) forceTier)
      tracker res tk' := by
  have hrun' : routeAux defaultModels backend (analyze prompt)
      (startTier (analyze prompt) forceTier) 0 tracker = (res, tk') := hrun
  generalize startTier (analyze prompt) forceTier = t0 at hrun' ⊢
  rcases eq_or_ne t0 "SIMPLE" with rfl | n1
  · exact protocolFromSimple backend (analyze prompt) tracker res tk' hrun'
  rcases eq_or_ne t0 "MEDIUM" with rfl | n2
  · exact protocolFromMedium backend (analyze prompt) tracker res tk' hrun'
  rcases eq_or_ne t0 "COMPLEX" with rfl | n3
  · exact protocolFromComplex backend (analyze prompt) tracker res tk' hrun'
  exact protocolUnknown backend (analyze prompt) t0 tracker res tk'
    (by simp [defaultModels, n1, n2, n3]) hrun'

/-- Witness for C1: the protocol holds for the concrete call
`route("Hi")` with no forced tier against the backend on which every tier
fails. -/
theorem route_fallback_protocol_witness :
    RouteProtocol demoFailBackend (startTier (analyze "Hi".toList) none)
      mkCostTracker
      (route defaultModels "Hi".toList none demoFailBackend mkCostTracker).1
      (route defaultModels "Hi".toList none demoFailBackend mkCostTracker).2 :=
  route_fallback_protocol "Hi".toList none demoFailBackend mkCostTracker _ _ rfl

/-! ## C2 — helper lemmas on the text scanners -/

theorem prefAt_append (k s t : List Char) (h : prefAt k s = true) :
    prefAt k (s ++ t) = true := by
  induction k generalizing s with
  | nil => simp [prefAt]
  | cons a ka ih =>
    cases s with
    | nil => simp [prefAt] at h
    | cons b sb =>
      simp only [prefAt, Bool.and_eq_true, beq_iff_eq] at h
      simp only [List.cons_append, prefAt, Bool.and_eq_true, beq_iff_eq]
      exact ⟨h.1, ih sb h.2⟩

theorem prefAt_length_le (k s : List Char) (h : prefAt k s = true) :
    k.length ≤ s.length := by
  induction k generalizing s with
  | nil => simp
  | cons a ka ih =>
    cases s with
    | nil => simp [prefAt] at h
    | cons b sb =>
      simp only [prefAt, Bool.and_eq_true, beq_iff_eq] at h
      simpa using ih sb h.2

theorem prefAt_proper (s : List Char) : ∀ (k t : List Char),
    prefAt k (s ++ t) = true → prefAt k s = false →
    prefAt s k = true ∧ s.length < k.length := by
  induction s with
  | nil =>
    intro k t h hf
    cases k with
    | nil => simp [prefAt] at hf
    | cons a ka => simp [prefAt]
  | cons c sr ih =>
    intro k t h hf
    cases k with
    | nil => simp [prefAt] at hf
    | cons a ka =>
      simp only [List.cons_append, prefAt, Bool.and_eq_true, beq_iff_eq] at h
      obtain ⟨rfl, h2⟩ := h
      simp only [prefAt, beq_self_eq_true, Bool.true_and] at hf
      obtain ⟨ih1, ih2⟩ := ih ka t h2 hf
      constructor
      · simp only [prefAt, beq_self_eq_true, Bool.true_and]
        exact ih1
      · simpa using ih2

theorem prefAt_eq_take (a : List Char) : ∀ (b : List Char),
    prefAt a b = true → a = b.take a.length := by
  induction a with
  | nil => intro b _; simp
  | cons x xa ih =>
    intro b h
    cases b with
    | nil => simp [prefAt] at h
    | cons y yb =>
      simp only [prefAt, Bool.and_eq_true, beq_iff_eq] at h
      simp only [List.length_cons, List.take_succ_cons]
      exact by rw [h.1, ← ih yb h.2]

theorem containsStr_nil (t : List Char) : containsStr t [] = true := by
  cases t <;> simp [containsStr, prefAt]

theorem containsStr_append_mono (s t k : List Char)
    (h : containsStr s k = true) : containsStr (s ++ t) k = true := by
  induction s with
  | nil =>
    simp only [containsStr, List.isEmpty_iff] at h
    subst h
    exact containsStr_nil t
  | cons c r ih =>
    simp only [containsStr, Bool.or_eq_true] at h
    rcases h with h | h
    · have := prefAt_append k (c :: r) t h
      simp only [List.cons_append] at this ⊢
      simp [containsStr, this]
    · simp only [List.cons_append, containsStr, Bool.or_eq_true]
      exact Or.inr (ih h)

theorem filter_length_mono {α : Type} (p q : α → Bool) (l : List α)
    (h : ∀ x ∈ l, p x = true → q x = true) :
    (l.filter p).length ≤ (l.filter q).length := by
  induction l with
  | nil => simp
  | cons a l ih =>
    have ih' := ih (fun x hx => h x (List.mem_cons_of_mem a hx))
    by_cases hp : p a = true
    · rw [List.filter_cons_of_pos hp,
        List.filter_cons_of_pos (h a (List.mem_cons_self a l) hp)]
      simpa using ih'
    · rw [List.filter_cons_of_neg (by simpa using hp)]
      by_cases hq : q a = true
      · rw [List.filter_cons_of_pos hq]
        simp only [List.length_cons]
        omega
      · rw [List.filter_cons_of_neg (by simpa using hq)]
        exact ih'

theorem kwCount_mono (kws : List (List Char)) (s t : List Char) :
    kwCount kws s ≤ kwCount kws (s ++ t) := by
  apply filter_length_mono
  intro k _ hk
  simp only [containsCi, List.map_append] at hk ⊢
  exact containsStr_append_mono _ _ _ hk

theorem countQuestions_mono (s t : List Char) :
    countQuestions s ≤ countQuestions (s ++ t) := by
  simp only [countQuestions, List.count_append]
  exact Nat.le_add_right _ _

theorem digit_lower_self (c : Char) (h : isDigitCh c = true) : lowerCh c = c := by
  simp only [isDigitCh, Bool.and_eq_true, decide_eq_true_eq] at h
  obtain ⟨h1, h2⟩ := h
  have hx : c.toNat ≤ 57 := by
    simpa [Char.le_def, UInt32.le_def, BitVec.le_def, Char.toNat,
      UInt32.toNat] using h2
  unfold lowerCh Char.toLower
  rw [if_neg]
  intro hcon
  obtain ⟨hc1, hc2⟩ := hcon
  omega

theorem not_digit_of_lower (c l : Char) (hl : lowerCh c = l)
    (hnd : isDigitCh l = false) : isDigitCh c = false := by
  rcases Bool.eq_false_or_eq_true (isDigitCh c) with h | h
  · rw [digit_lower_self c h] at hl
    subst hl
    rw [h] at hnd
    simp at hnd
  · exact h

theorem digit_false_big (s t : List Char) (k : List Char) (k0 : Char)
    (hk : prefAt (k0 :: k) (s.map lowerCh) = true)
    (h0 : isDigitCh k0 = false) :
    (0 < ((s ++ t).takeWhile isDigitCh).length
      && (((s ++ t).drop ((s ++ t).takeWhile isDigitCh).length).head?
            == some '.')) = false := by
  obtain ⟨c, r, rfl⟩ : ∃ c r, s = c :: r := by
    cases s
    · simp [prefAt] at hk
    · exact ⟨_, _, rfl⟩
  have hlc : lowerCh c = k0 := by
    simp only [List.map_cons, prefAt, Bool.and_eq_true, beq_iff_eq] at hk
    exact hk.1.symm
  have hcd : isDigitCh c = false := not_digit_of_lower c k0 hlc h0
  have htw0 : ((c :: r) ++ t).takeWhile isDigitCh = [] := by
    simp [List.takeWhile_cons, hcd]
  rw [htw0]
  simp

theorem earlierKwFalse (s t k' k : List Char)
    (hk' : prefAt k' (s.map lowerCh) = false)
    (hk : prefAt k (s.map lowerCh) = true)
    (hclash : ∀ j, j < k'.length → k.length ≤ j →
      prefAt k (k'.take j) = false) :
    prefAt k' (s.map lowerCh ++ t.map lowerCh) = false := by
  rcases Bool.eq_false_or_eq_true
    (prefAt k' (s.map lowerCh ++ t.map lowerCh)) with hT | hF
  swap
  · exact hF
  exfalso
  obtain ⟨hp, hl⟩ := prefAt_proper (s.map lowerCh) k' (t.map lowerCh) hT hk'
  have hkl := prefAt_length_le _ _ hk
  have htake := prefAt_eq_take _ _ hp
  rw [htake] at hk
  have hcl := hclash _ hl hkl
  rw [hk] at hcl
  simp at hcl

theorem splitMatchAt_append (s t : List Char) (n : ℕ)
    (h : splitMatchAt s = some n) :
    n ≤ s.length ∧ splitMatchAt (s ++ t) = some n := by
  simp only [splitMatchAt] at h
  by_cases hd : (0 < (s.takeWhile isDigitCh).length
      && ((s.drop (s.takeWhile isDigitCh).length).head? == some '.')) = true
  · rw [if_pos hd] at h
    obtain rfl : (s.takeWhile isDigitCh).length + 1 = n := Option.some.inj h
    simp only [Bool.and_eq_true, decide_eq_true_eq, beq_iff_eq] at hd
    obtain ⟨hd1, hd2⟩ := hd
    have hlen : (s.takeWhile isDigitCh).length < s.length := by
      by_contra hcon
      push_neg at hcon
      have h0 : (s.drop (s.takeWhile isDigitCh).length).length = 0 := by
        rw [List.length_drop]
        omega
      rw [List.eq_nil_of_length_eq_zero h0] at hd2
      exact Option.noConfusion hd2
    refine ⟨by omega, ?_⟩
    simp only [splitMatchAt]
    have htw : (s ++ t).takeWhile isDigitCh = s.takeWhile isDigitCh := by
      rw [List.takeWhile_append, if_neg (by omega)]
    rw [htw]
    have hdrop : (s ++ t).drop (s.takeWhile isDigitCh).length
        = s.drop (s.takeWhile isDigitCh).length ++ t :=
      List.drop_append_of_le_length (le_of_lt hlen)
    rw [hdrop]
    simp [List.head?_append, hd2, hd1]
  · rw [if_neg hd] at h
    by_cases h1 : prefAt ['s', 't', 'e', 'p'] (s.map lowerCh) = true
    · rw [if_pos h1] at h
      obtain rfl : (4 : ℕ) = n := Option.some.inj h
      have hle := prefAt_length_le _ _ h1
      refine ⟨by simpa using hle, ?_⟩
      have hbig : prefAt ['s', 't', 'e', 'p']
          (s.map lowerCh ++ t.map lowerCh) = true :=
        prefAt_append _ _ _ h1
      have hdig := digit_false_big s t _ 's' h1 (by decide)
      simp only [splitMatchAt]
      rw [hdig]
      simp [hbig]
    · rw [if_neg h1] at h
      by_cases h2 : prefAt ['f', 'i', 'r', 's', 't'] (s.map lowerCh) = true
      · rw [if_pos h2] at h
        obtain rfl : (5 : ℕ) = n := Option.some.inj h
        have hle := prefAt_length_le _ _ h2
        refine ⟨by simpa using hle, ?_⟩
        have hbig : prefAt ['f', 'i', 'r', 's', 't']
            (s.map lowerCh ++ t.map lowerCh) = true :=
          prefAt_append _ _ _ h2
        have hb1 := earlierKwFalse s t ['s', 't', 'e', 'p']
          ['f', 'i', 'r', 's', 't'] (by simpa using h1) h2 (by decide)
        have hdig := digit_false_big s t _ 'f' h2 (by decide)
        simp only [splitMatchAt]
        rw [hdig]
        simp [hb1, hbig]
      · rw [if_neg h2] at h
        by_cases h3 : prefAt ['t', 'h', 'e', 'n'] (s.map lowerCh) = true
        · rw [if_pos h3] at h
          obtain rfl : (4 : ℕ) = n := Option.some.inj h
          have hle := prefAt_length_le _ _ h3
          refine ⟨by simpa using hle, ?_⟩
          have hbig : prefAt ['t', 'h', 'e', 'n']
              (s.map lowerCh ++ t.map lowerCh) = true :=
            prefAt_append _ _ _ h3
          have hb1 := earlierKwFalse s t ['s', 't', 'e', 'p']
            ['t', 'h', 'e', 'n'] (by simpa using h1) h3 (by decide)
          have hb2 := earlierKwFalse s t ['f', 'i', 'r', 's', 't']
            ['t', 'h', 'e', 'n'] (by simpa using h2) h3 (by decide)
          have hdig := digit_false_big s t _ 't' h3 (by decide)
          simp only [splitMatchAt]
          rw [hdig]
          simp [hb1, hb2, hbig]
        · rw [if_neg h3] at h
          by_cases h4 : prefAt ['n', 'e', 'x', 't'] (s.map lowerCh) = true
          · rw [if_pos h4] at h
            obtain rfl : (4 : ℕ) = n := Option.some.inj h
            have hle := prefAt_length_le _ _ h4
            refine ⟨by simpa using hle, ?_⟩
            have hbig : prefAt ['n', 'e', 'x', 't']
                (s.map lowerCh ++ t.map lowerCh) = true :=
              prefAt_append _ _ _ h4
            have hb1 := earlierKwFalse s t ['s', 't', 'e', 'p']
              ['n', 'e', 'x', 't'] (by simpa using h1) h4 (by decide)
            have hb2 := earlierKwFalse s t ['f', 'i', 'r', 's', 't']
              ['n', 'e', 'x', 't'] (by simpa using h2) h4 (by decide)
            have hb3 := earlierKwFalse s t ['t', 'h', 'e', 'n']
              ['n', 'e', 'x', 't'] (by simpa using h3) h4 (by decide)
            have hdig := digit_false_big s t _ 'n' h4 (by decide)
            simp only [splitMatchAt]
            rw [hdig]
            simp [hb1, hb2, hb3, hbig]
          · rw [if_neg h4] at h
            by_cases h5 : prefAt ['f', 'i', 'n', 'a', 'l', 'l', 'y']
                (s.map lowerCh) = true
            · rw [if_pos h5] at h
              obtain rfl : (7 : ℕ) = n := Option.some.inj h
              have hle := prefAt_length_le _ _ h5
              refine ⟨by simpa using hle, ?_⟩
              have hbig : prefAt ['f', 'i', 'n', 'a', 'l', 'l', 'y']
                  (s.map lowerCh ++ t.map lowerCh) = true :=
                prefAt_append _ _ _ h5
              have hb1 := earlierKwFalse s t ['s', 't', 'e', 'p']
                ['f', 'i', 'n', 'a', 'l', 'l', 'y'] (by simpa using h1) h5
                (by decide)
              have hb2 := earlierKwFalse s t ['f', 'i', 'r', 's', 't']
                ['f', 'i', 'n', 'a', 'l', 'l', 'y'] (by simpa using h2) h5
                (by decide)
              have hb3 := earlierKwFalse s t ['t', 'h', 'e', 'n']
                ['f', 'i', 'n', 'a', 'l', 'l', 'y'] (by simpa using h3) h5
                (by decide)
              have hb4 := earlierKwFalse s t ['n', 'e', 'x', 't']
                ['f', 'i', 'n', 'a', 'l', 'l', 'y'] (by simpa using h4) h5
                (by decide)
              have hdig := digit_false_big s t _ 'f' h5 (by decide)
              simp only [splitMatchAt]
              rw [hdig]
              simp [hb1, hb2, hb3, hb4, hbig]
            · rw [if_neg h5] at h
              exact Option.noConfusion h

theorem splitScan_zero_digits (r : List Char)
    (h : ∀ x ∈ r, isDigitCh x = true) : splitScan 0 r = 0 := by
  induction r with
  | nil => rfl
  | cons c rr ih =>
    have hc : isDigitCh c = true := h c (List.mem_cons_self c rr)
    have htail : ∀ x ∈ rr, isDigitCh x = true :=
      fun x hx => h x (List.mem_cons_of_mem c hx)
    have hkw : ∀ (k0 : Char) (k : List Char), isDigitCh k0 = false →
        prefAt (k0 :: k) ((c :: rr).map lowerCh) = false := by
      intro k0 k hk0
      simp only [List.map_cons, prefAt]
      rw [digit_lower_self c hc]
      have hne : (k0 == c) = false := by
        rcases Bool.eq_false_or_eq_true (k0 == c) with hT | hF
        · exfalso
          have heq : k0 = c := by simpa using hT
          rw [heq, hc] at hk0
          simp at hk0
        · exact hF
      rw [hne]
      simp
    have hnone : splitMatchAt (c :: rr) = none := by
      simp only [splitMatchAt]
      have htw : (c :: rr).takeWhile isDigitCh = c :: rr :=
        List.takeWhile_eq_self_iff.mpr (fun x hx => by simp [h x hx])
      rw [htw, List.drop_length]
      rw [hkw 's' ['t', 'e', 'p'] (by decide),
        hkw 'f' ['i', 'r', 's', 't'] (by decide),
        hkw 't' ['h', 'e', 'n'] (by decide),
        hkw 'n' ['e', 'x', 't'] (by decide),
        hkw 'f' ['i', 'n', 'a', 'l', 'l', 'y'] (by decide)]
      simp
    simp only [splitScan, hnone]
    exact ih htail

theorem splitScan_zero_inert (r : List Char)
    (hin : lowerInert (r.map lowerCh) = true) : splitScan 0 r = 0 := by
  induction r with
  | nil => rfl
  | cons c rr ih =>
    unfold lowerInert at hin
    rw [Bool.and_eq_true] at hin
    obtain ⟨hall, hfree⟩ := hin
    rw [List.map_cons, List.all_cons, Bool.and_eq_true] at hall
    obtain ⟨hdig, halltail⟩ := hall
    rw [Bool.not_eq_true'] at hdig
    rw [List.map_cons, lowerKwFree, Bool.and_eq_true] at hfree
    obtain ⟨hks, hfreetail⟩ := hfree
    rw [Bool.and_eq_true, Bool.and_eq_true, Bool.and_eq_true,
      Bool.and_eq_true] at hks
    obtain ⟨⟨⟨⟨hk1, hk2⟩, hk3⟩, hk4⟩, hk5⟩ := hks
    rw [Bool.not_eq_true'] at hk1 hk2 hk3 hk4 hk5
    have hc : isDigitCh c = false := not_digit_of_lower c (lowerCh c) rfl hdig
    have hnone : splitMatchAt (c :: rr) = none := by
      simp only [splitMatchAt]
      have htw : (c :: rr).takeWhile isDigitCh = [] := by
        simp [List.takeWhile_cons, hc]
      rw [htw]
      simp only [List.map_cons]
      simp only [hk1, hk2, hk3, hk4, hk5]
      simp
    simp only [splitScan, hnone]
    refine ih ?_
    unfold lowerInert
    rw [Bool.and_eq_true]
    exact ⟨halltail, hfreetail⟩

theorem inert_of_take (r : List Char) (kt : List Char)
    (h : prefAt (r.map lowerCh) kt = true)
    (hdec : ∀ j, j ≤ kt.length → lowerInert (kt.take j) = true) :
    lowerInert (r.map lowerCh) = true := by
  have htake := prefAt_eq_take _ _ h
  have hlen := prefAt_length_le _ _ h
  have hcongr := congrArg lowerInert htake
  rw [hcongr]
  exact hdec _ hlen

theorem splitScan_zero_of_crossing (c : Char) (r t : List Char) (m : ℕ)
    (hm : splitMatchAt (c :: r) = none)
    (hm2 : splitMatchAt (c :: (r ++ t)) = some m) :
    splitScan 0 r = 0 := by
  simp only [splitMatchAt] at hm hm2
  split_ifs at hm with hdig hk1 hk2 hk3 hk4 hk5
  split_ifs at hm2 with gdig gk1 gk2 gk3 gk4 gk5
  · -- digit run crossing the junction: c :: r is all digits
    by_cases hts : (c :: r).takeWhile isDigitCh = c :: r
    · have hall := List.takeWhile_eq_self_iff.mp hts
      exact splitScan_zero_digits r
        (fun x hx => by simpa using hall x (List.mem_cons_of_mem c hx))
    · exfalso
      have hle : ((c :: r).takeWhile isDigitCh).length ≤ (c :: r).length :=
        (List.takeWhile_prefix _).length_le
      have hlt : ((c :: r).takeWhile isDigitCh).length < (c :: r).length := by
        rcases Nat.lt_or_ge ((c :: r).takeWhile isDigitCh).length
            (c :: r).length with h' | h'
        · exact h'
        · exact absurd ((List.takeWhile_prefix _).eq_of_length (by omega)) hts
      have htwbig : (c :: (r ++ t)).takeWhile isDigitCh
          = (c :: r).takeWhile isDigitCh := by
        have hsh : (c :: (r ++ t)) = (c :: r) ++ t := rfl
        rw [hsh, List.takeWhile_append, if_neg (by omega)]
      rw [htwbig] at gdig
      have hdropbig : (c :: (r ++ t)).drop ((c :: r).takeWhile isDigitCh).length
          = (c :: r).drop ((c :: r).takeWhile isDigitCh).length ++ t := by
        have hsh : (c :: (r ++ t)) = (c :: r) ++ t := rfl
        rw [hsh, List.drop_append_of_le_length (le_of_lt hlt)]
      rw [hdropbig, List.head?_append] at gdig
      simp only [Bool.and_eq_true, decide_eq_true_eq, beq_iff_eq] at gdig
      obtain ⟨g1, g2⟩ := gdig
      have hne : (c :: r).drop ((c :: r).takeWhile isDigitCh).length ≠ [] := by
        intro heq
        have hl2 : ((c :: r).drop ((c :: r).takeWhile isDigitCh).length).length
            = 0 := by
          rw [heq]
          rfl
        rw [List.length_drop] at hl2
        omega
      obtain ⟨y, ys, hys⟩ := List.exists_cons_of_ne_nil hne
      rw [hys] at g2
      have g2' : some y = some '.' := g2
      have hy : y = '.' := Option.some.inj g2'
      apply hdig
      rw [hys, hy]
      simp [g1]
  · -- "step" crossing the junction
    have hsh : (c :: (r ++ t)).map lowerCh
        = (c :: r).map lowerCh ++ t.map lowerCh := by simp
    rw [hsh] at gk1
    obtain ⟨hp, _⟩ := prefAt_proper ((c :: r).map lowerCh) _ _ gk1
      (by simpa using hk1)
    simp only [List.map_cons, prefAt, Bool.and_eq_true, beq_iff_eq] at hp
    exact splitScan_zero_inert r
      (inert_of_take r ['t', 'e', 'p'] hp.2 (by decide))
  · -- "first" crossing the junction
    have hsh : (c :: (r ++ t)).map lowerCh
        = (c :: r).map lowerCh ++ t.map lowerCh := by simp
    rw [hsh] at gk2
    obtain ⟨hp, _⟩ := prefAt_proper ((c :: r).map lowerCh) _ _ gk2
      (by simpa using hk2)
    simp only [List.map_cons, prefAt, Bool.and_eq_true, beq_iff_eq] at hp
    exact splitScan_zero_inert r
      (inert_of_take r ['i', 'r', 's', 't'] hp.2 (by decide))
  · -- "then" crossing the junction
    have hsh : (c :: (r ++ t)).map lowerCh
        = (c :: r).map lowerCh ++ t.map lowerCh := by simp
    rw [hsh] at gk3
    obtain ⟨hp, _⟩ := prefAt_proper ((c :: r).map lowerCh) _ _ gk3
      (by simpa using hk3)
    simp only [List.map_cons, prefAt, Bool.and_eq_true, beq_iff_eq] at hp
    exact splitScan_zero_inert r
      (inert_of_take r ['h', 'e', 'n'] hp.2 (by decide))
  · -- "next" crossing the junction
    have hsh : (c :: (r ++ t)).map lowerCh
        = (c :: r).map lowerCh ++ t.map lowerCh := by simp
    rw [hsh] at gk4
    obtain ⟨hp, _⟩ := prefAt_proper ((c :: r).map lowerCh) _ _ gk4
      (by simpa using hk4)
    simp only [List.map_cons, prefAt, Bool.and_eq_true, beq_iff_eq] at hp
    exact splitScan_zero_inert r
      (inert_of_take r ['e', 'x', 't'] hp.2 (by decide))
  · -- "finally" crossing the junction
    have hsh : (c :: (r ++ t)).map lowerCh
        = (c :: r).map lowerCh ++ t.map lowerCh := by simp
    rw [hsh] at gk5
    obtain ⟨hp, _⟩ := prefAt_proper ((c :: r).map lowerCh) _ _ gk5
      (by simpa using hk5)
    simp only [List.map_cons, prefAt, Bool.and_eq_true, beq_iff_eq] at hp
    exact splitScan_zero_inert r
      (inert_of_take r ['i', 'n', 'a', 'l', 'l', 'y'] hp.2 (by decide))

theorem splitScan_append_le (t : List Char) : ∀ (s : List Char) (k : ℕ),
    splitScan k s ≤ splitScan k (s ++ t) := by
  intro s
  induction s with
  | nil =>
    intro k
    have h0 : splitScan k ([] : List Char) = 0 := by cases k <;> rfl
    rw [h0]
    exact Nat.zero_le _
  | cons c r ih =>
    intro k
    cases k with
    | succ j =>
      have e1 : splitScan (j + 1) (c :: r) = splitScan j r := rfl
      have e2 : splitScan (j + 1) (c :: (r ++ t)) = splitScan j (r ++ t) := rfl
      have e3 : (c :: r) ++ t = c :: (r ++ t) := rfl
      rw [e3, e1, e2]
      exact ih j
    | zero =>
      have e3 : (c :: r) ++ t = c :: (r ++ t) := rfl
      rcases hm : splitMatchAt (c :: r) with _ | n
      · rcases hm2 : splitMatchAt (c :: (r ++ t)) with _ | m
        · have e1 : splitScan 0 (c :: r) = splitScan 0 r := by
            simp only [splitScan, hm]
          have e2 : splitScan 0 (c :: (r ++ t)) = splitScan 0 (r ++ t) := by
            simp only [splitScan, hm2]
          rw [e3, e1, e2]
          exact ih 0
        · have hz : splitScan 0 r = 0 := splitScan_zero_of_crossing c r t m hm hm2
          have e1 : splitScan 0 (c :: r) = splitScan 0 r := by
            simp only [splitScan, hm]
          have e2 : splitScan 0 (c :: (r ++ t))
              = 1 + splitScan (m - 1) (r ++ t) := by
            simp only [splitScan, hm2]
          rw [e3, e1, e2, hz]
          exact Nat.zero_le _
      · obtain ⟨_, hst⟩ := splitMatchAt_append (c :: r) t n hm
        have hst' : splitMatchAt (c :: (r ++ t)) = some n := hst
        have e1 : splitScan 0 (c :: r) = 1 + splitScan (n - 1) r := by
          simp only [splitScan, hm]
        have e2 : splitScan 0 (c :: (r ++ t))
            = 1 + splitScan (n - 1) (r ++ t) := by
          simp only [splitScan, hst']
        rw [e3, e1, e2]
        exact Nat.add_le_add_left (ih (n - 1)) 1

theorem assessReasoning_mono (s t : List Char) :
    assessReasoning s ≤ assessReasoning (s ++ t) := by
  unfold assessReasoning countSplits
  exact min_le_min (le_refl 10)
    (Nat.add_le_add (kwCount_mono reasoningKeywords s t) (splitScan_append_le t s 0))

theorem calculateComplexity_mono (A C : List Char)
    (hcode : detectCode A = true → detectCode (A ++ C) = true) :
    calculateComplexity A ≤ calculateComplexity (A ++ C) := by
  unfold calculateComplexity
  apply min_le_min (le_refl 100)
  have hlen : A.length ≤ (A ++ C).length := by simp
  have hq := countQuestions_mono A C
  have hr := assessReasoning_mono A C
  have hck := kwCount_mono complexKeywords A C
  have p1 : (if 500 < A.length then 20 else 0)
      ≤ (if 500 < (A ++ C).length then 20 else 0) := by
    split_ifs <;> omega
  have p2 : (if 1000 < A.length then 20 else 0)
      ≤ (if 1000 < (A ++ C).length then 20 else 0) := by
    split_ifs <;> omega
  have p3 : (if detectCode A then 25 else 0)
      ≤ (if detectCode (A ++ C) then 25 else 0) := by
    by_cases hA : detectCode A = true
    · rw [if_pos hA, if_pos (hcode hA)]
    · rw [if_neg hA]
      exact Nat.zero_le _
  have p6 : (if 1 < countQuestions A then countQuestions A * 5 else 0)
      ≤ (if 1 < countQuestions (A ++ C) then countQuestions (A ++ C) * 5
          else 0) := by
    split_ifs <;> omega
  omega

/-! ## C2 — the monotonicity claim itself -/

set_option maxRecDepth 100000 in
set_option maxHeartbeats 2000000 in
/-- C2 counterexample: `cexB` is `cexA` with 1000 characters appended and
nothing else changed, yet its complexity score is lower (40 against 45):
the appended word characters destroy the word-boundary match of
`/\bfunction\b/i` that was `cexA`'s only code signal, losing the 25-point
code bonus, while the length bonus only grows by 20. The claim as stated
is therefore false. -/
theorem complexityScore_monotone_counterexample :
    cexB = cexA ++ List.replicate 1000 'a'
    ∧ 1000 ≤ (List.replicate 1000 'a' : List Char).length
    ∧ calculateComplexity cexB < calculateComplexity cexA :=
  ⟨rfl, by simp, by decide⟩

/-- C2 as amended: for texts `A` and `B = A ++ C` with at least 1000 extra
characters appended and no other change, the complexity score is monotone
— `complexityScore B ≥ complexityScore A` — provided appending did not
destroy the code flag (`hasCode A → hasCode B`); every other score
component (length bonuses, reasoning keywords, multi-step split matches,
complex keywords, question count) can only grow under appending. -/
theorem complexityScore_monotone_code_preserved (A C : List Char)
    (_hlen : 1000 ≤ C.length)
    (hcode : detectCode A = true → detectCode (A ++ C) = true) :
    calculateComplexity A ≤ calculateComplexity (A ++ C) :=
  calculateComplexity_mono A C hcode

set_option maxRecDepth 10000 in
/-- Witness for C2 (amended) at `A = ""` and `C` a 1000-character text. -/
theorem complexityScore_monotone_code_preserved_witness :
    calculateComplexity [] ≤ calculateComplexity (List.replicate 1000 'a') := by
  have h := complexityScore_monotone_code_preserved [] (List.replicate 1000 'a')
    (by rw [List.length_replicate]) (fun hc => absurd hc (by decide))
  exact h

end SmartRouter
